import Mathlib

/-!
# TOP-AI-Analyst — report reconciliation and aggregation engine

Shallow embedding of the report merge / ingestion / aggregation logic of the
AdArbitrage AI application (App.tsx `handleImportFile`, `deleteHistoryItem`;
Dashboard.tsx visibility filter and export functions; types.ts data model).

JavaScript numbers are modelled as rationals (ℚ): every arithmetic operation
performed by the code (addition, subtraction, division by a positive total,
multiplication by 100) is exact on the small financial figures involved, and
the spec's own statements (profit = revenue - cost exactly, merge
associativity) are about the idealised arithmetic.
-/

namespace TopAI

/-- `status` field of a country record: the string union
`'PROFITABLE' | 'LOSS' | 'BREAK_EVEN'` from types.ts. -/
inductive Status where
  | PROFITABLE
  | LOSS
  | BREAK_EVEN
deriving DecidableEq, Repr

/-- `CountryData` from types.ts: one country's financial record. -/
structure CountryData where
  country : String
  cost : ℚ
  revenue : ℚ
  profit : ℚ
  roi : ℚ
  status : Status
deriving DecidableEq, Repr

/-- The `summary` object of an `AnalysisResult` (types.ts). -/
structure Summary where
  totalCost : ℚ
  totalRevenue : ℚ
  netProfit : ℚ
  totalRoi : ℚ
deriving DecidableEq, Repr

/-- `AnalysisResult` from types.ts. -/
structure AnalysisResult where
  summary : Summary
  details : List CountryData
  badCountries : List String
  recommendations : List String
deriving DecidableEq, Repr

/-- `HistoryItem` from types.ts. -/
structure HistoryItem where
  id : String
  timestamp : Nat
  result : AnalysisResult
deriving DecidableEq, Repr

/-! ## Summary aggregation

App.tsx lines 141-152 (summary synthesis for legacy payloads) and lines
177-180 (summary recomputation after a merge) both compute the same
aggregate: `reduce`-sums of `cost` and `revenue`, net profit as their
difference, and ROI guarded by `totalCost > 0`.  (`curr.cost || 0` on a
number that is present is the identity: `0 || 0` is `0`.) -/

/-- Aggregate a list of records into a `Summary` (App.tsx 141-152, 177-180). -/
def summarize (details : List CountryData) : Summary :=
  let tc := details.foldl (fun acc curr => acc + curr.cost) 0
  let tr := details.foldl (fun acc curr => acc + curr.revenue) 0
  let np := tr - tc
  { totalCost := tc
    totalRevenue := tr
    netProfit := np
    totalRoi := if tc > 0 then np / tc * 100 else 0 }

/-! ## The merge (App.tsx lines 156-190)

The code builds a JavaScript `Map<string, CountryData>` keyed by country:
first every record of the current result is `set` into the map, then each
incoming record is either additively merged into the existing entry
(`cost += ...; revenue += ...;` with `profit`, `roi`, `status` rederived) or
inserted as a new entry.  `Array.from(map.values())` finally reads the
records back in first-insertion order.

A `Map` whose values are records carrying their own key is modelled as a
`List CountryData` in insertion order, with at most one record per country;
`set` on an existing key overwrites in place, `set` on a new key appends. -/

/-- Additive merge of a colliding incoming record into the existing map entry
(App.tsx lines 165-170): sums `cost` and `revenue`, rederives `profit`,
`roi` (zero-cost guard) and `status` (`> 0` / `< -0.5` thresholds). -/
def mergeRecord (existing newItem : CountryData) : CountryData :=
  let cost := existing.cost + newItem.cost
  let revenue := existing.revenue + newItem.revenue
  let profit := revenue - cost
  { country := existing.country
    cost := cost
    revenue := revenue
    profit := profit
    roi := if cost > 0 then profit / cost * 100 else 0
    status := if profit > 0 then Status.PROFITABLE
              else if profit < -0.5 then Status.LOSS
              else Status.BREAK_EVEN }

/-- `Map.set` keyed by `item.country` (App.tsx line 160): overwrite the entry
with the same country in place, or append when the country is new. -/
def setMap (acc : List CountryData) (item : CountryData) : List CountryData :=
  if acc.any (fun r => r.country == item.country) then
    acc.map (fun r => if r.country == item.country then item else r)
  else
    acc ++ [item]

/-- Step 1 of the merge (App.tsx line 160): insert all current records into
the map.  (`{ ...item }` copies the record; a copy is the record itself in a
pure model.) -/
def baseMap (details : List CountryData) : List CountryData :=
  details.foldl setMap []

/-- One iteration of step 2 of the merge (App.tsx lines 163-174): a colliding
incoming record is additively merged into the existing entry, a new country
is inserted as-is. -/
def mergeStep (acc : List CountryData) (newItem : CountryData) : List CountryData :=
  if acc.any (fun r => r.country == newItem.country) then
    acc.map (fun r => if r.country == newItem.country then mergeRecord r newItem else r)
  else
    acc ++ [newItem]

/-- The merged `details` list (App.tsx lines 156-176). -/
def mergeDetails (base incoming : List CountryData) : List CountryData :=
  incoming.foldl mergeStep (baseMap base)

/-- `Array.from(new Set([...a, ...b]))` (App.tsx lines 182-183): union with
duplicates removed, keeping the first occurrence of each element. -/
def dedupKeepFirst (l : List String) : List String :=
  l.foldl (fun acc x => if x ∈ acc then acc else acc ++ [x]) []

/-- The merged result (App.tsx lines 176-190): merged details, recomputed
summary, first-seen unions of `badCountries` and `recommendations`. -/
def mergeResults (result importedData : AnalysisResult) : AnalysisResult :=
  let mergedDetails := mergeDetails result.details importedData.details
  { summary := summarize mergedDetails
    details := mergedDetails
    badCountries := dedupKeepFirst (result.badCountries ++ importedData.badCountries)
    recommendations := dedupKeepFirst (result.recommendations ++ importedData.recommendations) }

/-! ## Ingestion (App.tsx lines 129-153)

The parsed payload is used directly as an `AnalysisResult`-shaped object;
the only shape repair performed is: reject when `details` is absent, default
absent `badCountries`/`recommendations` to `[]`, and synthesize `summary`
from `details` when it is absent.  The fields the code tests for presence
with a falsy check are modelled as `Option`s (the present values — arrays
and objects — are always truthy in JavaScript, so the falsy check is
exactly a presence check). -/

/-- A parsed external payload as consumed by `handleImportFile`: each
top-level field may be absent. -/
structure ImportedData where
  details : Option (List CountryData)
  summary : Option Summary
  badCountries : Option (List String)
  recommendations : Option (List String)
deriving DecidableEq, Repr

/-- The validation/repair stage of `handleImportFile` (App.tsx lines
129-153): fails when `details` is absent, defaults the optional lists, and
synthesizes the summary from `details` when absent. -/
def ingest (importedData : ImportedData) : Option AnalysisResult :=
  match importedData.details with
  | none => none
  | some d =>
      some { summary := importedData.summary.getD (summarize d)
             details := d
             badCountries := importedData.badCountries.getD []
             recommendations := importedData.recommendations.getD [] }

/-- The full import pipeline of `handleImportFile` (App.tsx lines 129-198)
after the payload has been parsed: ingest, then merge with the current
result when one exists, else load the ingested payload directly. -/
def handleImportFile (result : Option AnalysisResult) (importedData : ImportedData) :
    Option AnalysisResult :=
  match ingest importedData with
  | none => none
  | some incoming =>
      match result with
      | some current => some (mergeResults current incoming)
      | none => some incoming

/-! ## Raw ingestion model (field-level JavaScript semantics)

The summary synthesis (App.tsx lines 140-153) reads `curr.cost || 0` and
`curr.revenue || 0` from the raw parsed records, so a record with a missing
`cost` or `revenue` contributes 0 to the synthesized totals.  To express
that, the raw payload records are modelled with optional numeric fields
(`none` = the JSON field is absent; `x || 0` is `Option.getD · 0`, which
also maps a present `0` to `0`). -/

/-- A raw per-country record of an external payload: `cost`/`revenue` may be
absent. -/
structure RawRecord where
  country : String
  cost : Option ℚ
  revenue : Option ℚ
deriving DecidableEq, Repr

/-- A raw external payload with optional top-level fields. -/
structure RawPayload where
  details : Option (List RawRecord)
  summary : Option Summary
  badCountries : Option (List String)
  recommendations : Option (List String)
deriving DecidableEq, Repr

/-- A raw payload after the repair stage: all fields present. -/
structure RawIngested where
  details : List RawRecord
  summary : Summary
  badCountries : List String
  recommendations : List String
deriving DecidableEq, Repr

/-- Summary synthesis over raw records (App.tsx lines 141-152): `reduce`
sums of `curr.cost || 0` and `curr.revenue || 0`, net profit, guarded ROI. -/
def rawSynthSummary (d : List RawRecord) : Summary :=
  let tc := d.foldl (fun acc curr => acc + curr.cost.getD 0) 0
  let tr := d.foldl (fun acc curr => acc + curr.revenue.getD 0) 0
  let np := tr - tc
  { totalCost := tc
    totalRevenue := tr
    netProfit := np
    totalRoi := if tc > 0 then np / tc * 100 else 0 }

/-- The validation/repair stage (App.tsx lines 129-153) over raw payloads:
reject when `details` is absent, default the optional lists, synthesize the
summary from the raw details when absent. -/
def rawIngest (p : RawPayload) : Option RawIngested :=
  match p.details with
  | none => none
  | some d =>
      some { details := d
             summary := p.summary.getD (rawSynthSummary d)
             badCountries := p.badCountries.getD []
             recommendations := p.recommendations.getD [] }

/-! ## History (App.tsx lines 49-66)

The history state and the persisted `localStorage` copy always hold the same
list; `deleteHistoryItem` replaces both with the filtered list. -/

/-- `deleteHistoryItem` (App.tsx lines 61-66): keep exactly the entries whose
id differs from the deleted id. -/
def deleteHistoryItem (history : List HistoryItem) (id : String) : List HistoryItem :=
  history.filter (fun item => item.id != id)

/-! ## Visibility filter (Dashboard.tsx) -/

/-- `visibleData` (Dashboard.tsx lines 21-23): the records whose country is
not hidden. -/
def visibleData (details : List CountryData) (hiddenCountries : List String) :
    List CountryData :=
  details.filter (fun d => !(hiddenCountries.contains d.country))

/-- The on-screen summary (Dashboard.tsx lines 25-37): the stored summary
when nothing is hidden, otherwise recomputed over the visible records.
(`item.cost || 0` on a present number is the identity.) -/
def dashboardSummary (data : AnalysisResult) (hiddenCountries : List String) : Summary :=
  if hiddenCountries.length = 0 then data.summary
  else
    let vis := visibleData data.details hiddenCountries
    let totalCost := vis.foldl (fun sum item => sum + item.cost) 0
    let totalRevenue := vis.foldl (fun sum item => sum + item.revenue) 0
    { totalCost := totalCost
      totalRevenue := totalRevenue
      netProfit := totalRevenue - totalCost
      totalRoi := if totalCost > 0 then (totalRevenue - totalCost) / totalCost * 100 else 0 }

/-- `visibleBadCountries` (Dashboard.tsx line 289). -/
def visibleBadCountries (badCountries hiddenCountries : List String) : List String :=
  badCountries.filter (fun c => !(hiddenCountries.contains c))

/-- The Dashboard's state relevant to visibility: the canonical result
(`data` prop, owned by App) and the `hiddenCountries` component state. -/
structure DashboardState where
  data : AnalysisResult
  hiddenCountries : List String
deriving DecidableEq, Repr

/-- `toggleVisibility` (Dashboard.tsx lines 39-45): add or remove a country
from the hidden set; the canonical `data` is not touched. -/
def toggleVisibility (s : DashboardState) (country : String) : DashboardState :=
  { s with hiddenCountries :=
      if s.hiddenCountries.contains country then
        s.hiddenCountries.filter (fun c => c != country)
      else
        s.hiddenCountries ++ [country] }

/-! ## Sample data used by concrete instances -/

/-- The base record of the spec's merge example: India, cost 100, revenue
150 (derived fields consistent). -/
def india100 : CountryData :=
  { country := "India", cost := 100, revenue := 150, profit := 50, roi := 50,
    status := .PROFITABLE }

/-- The incoming India record of the merge example: cost 50, revenue 20. -/
def indiaInc : CountryData :=
  { country := "India", cost := 50, revenue := 20, profit := -30, roi := -60,
    status := .LOSS }

/-- The incoming Brazil record of the merge example: cost 10, revenue 5. -/
def brazilInc : CountryData :=
  { country := "Brazil", cost := 10, revenue := 5, profit := -5, roi := -50,
    status := .LOSS }

/-- The merge example's base result: India only. -/
def mergeExampleBase : AnalysisResult :=
  { summary := summarize [india100], details := [india100],
    badCountries := [], recommendations := [] }

/-- The merge example's incoming payload: India (50/20) and Brazil (10/5). -/
def mergeExampleIncoming : ImportedData :=
  { details := some [indiaInc, brazilInc],
    summary := some (summarize [indiaInc, brazilInc]),
    badCountries := some [], recommendations := some [] }

/-- An all-zero analysis result. -/
def emptyResult : AnalysisResult :=
  { summary := { totalCost := 0, totalRevenue := 0, netProfit := 0, totalRoi := 0 },
    details := [], badCountries := [], recommendations := [] }

/-- A history entry with id "a". -/
def histA : HistoryItem := { id := "a", timestamp := 1, result := emptyResult }

/-- A history entry with id "b". -/
def histB : HistoryItem := { id := "b", timestamp := 2, result := emptyResult }

/-! ## Spec-side payload and sample definitions used by the claims -/

/-- `JSON.parse(JSON.stringify(R, null, 2))` as consumed by
`handleImportFile`: every field of `R` present. -/
def jsonExportImported (R : AnalysisResult) : ImportedData :=
  { details := some R.details
    summary := some R.summary
    badCountries := some R.badCountries
    recommendations := some R.recommendations }

/-- A record whose country is the empty string. -/
def emptyCountryRecord : CountryData :=
  { country := "", cost := 5, revenue := 3, profit := -2, roi := -40,
    status := .LOSS }

/-- A payload containing only the empty-country record. -/
def emptyCountryPayload : ImportedData :=
  { details := some [emptyCountryRecord], summary := none,
    badCountries := none, recommendations := none }

/-- A payload whose carried summary does not match its details. -/
def inconsistentPayload : ImportedData :=
  { details := some [india100]
    summary := some { totalCost := 999, totalRevenue := 0, netProfit := 0, totalRoi := 0 }
    badCountries := some []
    recommendations := some [] }

/-- The spec's legacy payload: one India record (cost 100, revenue 150), no
summary. -/
def legacyPayload : RawPayload :=
  { details := some [{ country := "India", cost := some 100, revenue := some 150 }]
    summary := none, badCountries := some [], recommendations := some [] }

/-- A payload whose single record has a negative cost. -/
def negativeCostPayload : RawPayload :=
  { details := some [{ country := "X", cost := some (-5), revenue := some 3 }]
    summary := none, badCountries := none, recommendations := none }

/-- All records of a list have non-negative cost and revenue. -/
def nonNegDetails (l : List CountryData) : Prop :=
  ∀ r ∈ l, 0 ≤ r.cost ∧ 0 ≤ r.revenue

/-! ## HTML export and the `.html` import marker (Dashboard.tsx, App.tsx)

`handleDownloadHtml` (Dashboard.tsx lines 75-272) serializes the payload
object `{details, badCountries, recommendations, summary, generatedAt}` with
`JSON.stringify` and embeds it into a fixed HTML template as
`const DATA = <json>;`.  The `.html` import path (App.tsx lines 122-127)
recovers the payload with the regex `/const DATA = ({.*?});/s` and parses
the captured group with `JSON.parse`.

The document text is modelled exactly (the full template, with the compact
`JSON.stringify` serialization of the payload); the regex is modelled by
`extractData`: the leftmost occurrence of `const DATA = {`, then the lazy
(shortest) completion up to the first following `};`, capturing braces
included.  `JSON.parse` of the recovered text is the browser's inverse of
`JSON.stringify`: when the captured text is exactly the serialized payload,
parsing yields the payload object, whose ingestion is modelled at the data
level (as for the JSON round trip). -/

/-- The suffix of `hay` starting at the first occurrence of `needle`
(`none` when `needle` does not occur). -/
def dropUntilSub (needle : List Char) : List Char → Option (List Char)
  | [] => if needle.isPrefixOf [] then some [] else none
  | c :: rest =>
      if needle.isPrefixOf (c :: rest) then some (c :: rest)
      else dropUntilSub needle rest

/-- The characters of `hay` before the first occurrence of `needle`
(`none` when `needle` does not occur). -/
def takeUntilSub (needle : List Char) : List Char → Option (List Char)
  | [] => if needle.isPrefixOf [] then some [] else none
  | c :: rest =>
      if needle.isPrefixOf (c :: rest) then some []
      else (takeUntilSub needle rest).map (c :: ·)

/-- `needle` occurs somewhere in `hay`. -/
def hasSub (needle hay : List Char) : Bool := (dropUntilSub needle hay).isSome

/-- The marker the import regex anchors on: `const DATA = ` followed by the
payload's opening brace. -/
def markerChars : List Char := "const DATA = \x7b".toList

/-- The lazy terminator of the import regex: the payload's closing brace
followed by `;`. -/
def braceSemi : List Char := "\x7d;".toList

/-- The `.html` import path's payload extraction (App.tsx lines 123-127):
the regex `/const DATA = ({.*?});/s` — locate the leftmost
`const DATA = {`, then capture from that `{` lazily up to (and including)
the `}` of the first following `};`. -/
def extractData (text : String) : Option String :=
  (dropUntilSub markerChars text.toList).bind fun fromMarker =>
    (takeUntilSub braceSemi (fromMarker.drop 14)).map fun mid =>
      String.mk ('\x7b' :: (mid ++ ['\x7d']))

/-- JSON string-character escaping as performed by `JSON.stringify` (the
common cases: quote, backslash, and the control characters appearing in
text). -/
def escapeJsonChar (c : Char) : List Char :=
  if c = '"' then ['\\', '"']
  else if c = '\\' then ['\\', '\\']
  else if c = '\n' then ['\\', 'n']
  else if c = '\r' then ['\\', 'r']
  else if c = '\t' then ['\\', 't']
  else [c]

/-- `JSON.stringify` of a string value. -/
def renderString (s : String) : String :=
  String.mk ('"' :: (s.toList.map escapeJsonChar).flatten ++ ['"'])

/-- `JSON.stringify` of a number.  JavaScript numbers are binary floats, so
every value the code produces has a finite decimal expansion; the model
prints the exact decimal when the denominator divides a power of ten and
falls back to a fraction marker otherwise (unreachable for float-valued
data). -/
def renderNum (q : ℚ) : String :=
  let sign := if q.num < 0 then "-" else ""
  if q.den = 1 then sign ++ Nat.repr q.num.natAbs
  else
    match (List.range 64).find? (fun k => 10 ^ k % q.den = 0) with
    | some k =>
        let scaled := q.num.natAbs * (10 ^ k / q.den)
        let s := Nat.repr scaled
        let s := if s.length ≤ k then
            String.mk (List.replicate (k + 1 - s.length) '0') ++ s
          else s
        sign ++ (s.toList.take (s.length - k)).asString ++ "."
          ++ (s.toList.drop (s.length - k)).asString
    | none => sign ++ Nat.repr q.num.natAbs ++ "div" ++ Nat.repr q.den

/-- `JSON.stringify` of a record's `status` string. -/
def renderStatus : Status → String
  | Status.PROFITABLE => "\"PROFITABLE\""
  | Status.LOSS => "\"LOSS\""
  | Status.BREAK_EVEN => "\"BREAK_EVEN\""

/-- `JSON.stringify` of one country record (keys in the `CountryData`
declaration order of types.ts). -/
def renderRecord (r : CountryData) : String :=
  "\x7b\"country\":" ++ renderString r.country
  ++ ",\"cost\":" ++ renderNum r.cost
  ++ ",\"revenue\":" ++ renderNum r.revenue
  ++ ",\"profit\":" ++ renderNum r.profit
  ++ ",\"roi\":" ++ renderNum r.roi
  ++ ",\"status\":" ++ renderStatus r.status
  ++ "\x7d"

/-- `JSON.stringify` of an array of strings. -/
def renderStringList (l : List String) : String :=
  "[" ++ String.intercalate "," (l.map renderString) ++ "]"

/-- `JSON.stringify` of the summary object. -/
def renderSummary (s : Summary) : String :=
  "\x7b\"totalCost\":" ++ renderNum s.totalCost
  ++ ",\"totalRevenue\":" ++ renderNum s.totalRevenue
  ++ ",\"netProfit\":" ++ renderNum s.netProfit
  ++ ",\"totalRoi\":" ++ renderNum s.totalRoi
  ++ "\x7d"

/-- The serialized payload text between its outer braces (Dashboard.tsx
lines 76-82: `{details, badCountries, recommendations, summary,
generatedAt}` in that key order). -/
def jsonPayloadInner (data : AnalysisResult) (generatedAt : String) : String :=
  "\"details\":[" ++ String.intercalate "," (data.details.map renderRecord)
  ++ "],\"badCountries\":" ++ renderStringList data.badCountries
  ++ ",\"recommendations\":" ++ renderStringList data.recommendations
  ++ ",\"summary\":" ++ renderSummary data.summary
  ++ ",\"generatedAt\":" ++ renderString generatedAt

/-- The serialized payload: `JSON.stringify` of the export object
(Dashboard.tsx lines 76-82). -/
def jsonPayload (data : AnalysisResult) (generatedAt : String) : String :=
  "\x7b" ++ jsonPayloadInner data generatedAt ++ "\x7d"

/-- The HTML export template text before `const DATA = ` (the template
literal of `handleDownloadHtml`, Dashboard.tsx lines 84-166), as a list of
chunks (split only for incremental well-formedness checking; their
concatenation is the exact template text). -/
def htmlHeadParts : List String :=
  ["<!DOCTYPE html>\n",
   "<html lang=\"en\">\n",
   "<head>\n",
   "    <meta charset=\"UTF-8\">\n",
   "    <meta name=\"viewport\" content=\"width=device-width, initial-scale=1.0\">\n",
   "    <title>AdArbitrage Interactive Report</title>\n",
   "    <script src=\"https://cdn.tailwindcss.com\"></script>\n",
   "    <link href=\"https://fonts.googleapis.com/css2?family=Inter:wght@300;400;500;",
   "600;700&display=swap\" rel=\"stylesheet\">\n",
   "    <style>\n",
   "        body \x7b background-color: #0f172a; color: #e2e8f0; font-family: \x27Inter\x27, ",
   "sans-serif; \x7d\n",
   "        .profit-pos \x7b color: #10b981; \x7d\n",
   "        .profit-neg \x7b color: #ef4444; \x7d\n",
   "        .hidden \x7b display: none !important; \x7d\n",
   "        ::-webkit-scrollbar \x7b width: 8px; height: 8px; \x7d\n",
   "        ::-webkit-scrollbar-track \x7b background: #1e293b; \x7d\n",
   "        ::-webkit-scrollbar-thumb \x7b background: #475569; border-radius: 4px; \x7d\n",
   "    </style>\n",
   "</head>\n",
   "<body class=\"p-8 max-w-6xl mx-auto\">\n",
   "    <div class=\"mb-8 border-b border-slate-700 pb-4 flex justify-between items-e",
   "nd\">\n",
   "        <div>\n",
   "            <h1 class=\"text-3xl font-bold text-white\">Analysis Report</h1>\n",
   "            <p class=\"text-slate-400 mt-1\" id=\"date-label\">Generated on...</p>\n",
   "        </div>\n",
   "        <div class=\"text-right text-xs text-slate-500\">AdArbitrage AI (Offline M",
   "ode)</div>\n",
   "    </div>\n",
   "    <div id=\"hidden-banner\" class=\"hidden mb-6 bg-slate-800 border border-slate-",
   "600 rounded-lg p-3 flex flex-wrap items-center gap-2\">\n",
   "        <span class=\"text-slate-400 text-sm mr-2\">Hidden Countries:</span>\n",
   "        <div id=\"hidden-chips\" class=\"flex flex-wrap gap-2\"></div>\n",
   "        <button onclick=\"app.showAll()\" class=\"text-xs text-indigo-400 hover:tex",
   "t-indigo-300 ml-auto font-medium cursor-pointer\">Show All</button>\n",
   "    </div>\n",
   "    <div class=\"grid grid-cols-2 md:grid-cols-4 gap-4 mb-8\">\n",
   "        <div class=\"bg-slate-800 p-6 rounded-xl border border-slate-700\">\n",
   "            <p class=\"text-slate-400 text-xs uppercase tracking-wider\">Total Cos",
   "t</p>\n",
   "            <p class=\"text-2xl font-bold text-red-400\" id=\"sum-cost\">...</p>\n",
   "        </div>\n",
   "        <div class=\"bg-slate-800 p-6 rounded-xl border border-slate-700\">\n",
   "            <p class=\"text-slate-400 text-xs uppercase tracking-wider\">Total Rev",
   "enue</p>\n",
   "            <p class=\"text-2xl font-bold text-emerald-400\" id=\"sum-rev\">...</p>\n",
   "        </div>\n",
   "        <div class=\"bg-slate-800 p-6 rounded-xl border border-slate-700\">\n",
   "            <p class=\"text-slate-400 text-xs uppercase tracking-wider\">Net Profi",
   "t</p>\n",
   "            <p class=\"text-2xl font-bold\" id=\"sum-profit\">...</p>\n",
   "        </div>\n",
   "        <div class=\"bg-slate-800 p-6 rounded-xl border border-slate-700\">\n",
   "            <p class=\"text-slate-400 text-xs uppercase tracking-wider\">Total ROI",
   "</p>\n",
   "            <p class=\"text-2xl font-bold\" id=\"sum-roi\">...</p>\n",
   "        </div>\n",
   "    </div>\n",
   "    <div class=\"grid md:grid-cols-2 gap-6 mb-8\">\n",
   "        <div class=\"bg-slate-800 p-6 rounded-xl border border-slate-700\">\n",
   "            <h3 class=\"font-bold text-white mb-4 flex items-center gap-2 text-lg",
   "\">\n",
   "                <span class=\"text-red-500\">\u26a0</span> Bad Countries (Block List)\n",
   "            </h3>\n",
   "            <div id=\"bad-countries-list\" class=\"flex flex-wrap gap-2\"></div>\n",
   "        </div>\n",
   "        <div class=\"bg-slate-800 p-6 rounded-xl border border-slate-700\">\n",
   "            <h3 class=\"font-bold text-white mb-4 text-lg\">Recommendations</h3>\n",
   "            <ul id=\"rec-list\" class=\"list-disc list-inside text-sm text-slate-30",
   "0 space-y-2\"></ul>\n",
   "        </div>\n",
   "    </div>\n",
   "    <div class=\"bg-slate-800 rounded-xl border border-slate-700 overflow-hidden\"",
   ">\n",
   "        <div class=\"p-4 border-b border-slate-700 bg-slate-900/50 flex justify-b",
   "etween\">\n",
   "            <h3 class=\"font-semibold text-white\">Detailed Breakdown</h3>\n",
   "            <span class=\"text-xs text-slate-400\" id=\"row-count\"></span>\n",
   "        </div>\n",
   "        <table class=\"w-full text-left text-sm text-slate-400\">\n",
   "            <thead class=\"bg-slate-900 text-slate-200 uppercase font-medium\">\n",
   "                <tr>\n",
   "                    <th class=\"px-6 py-3\">Country</th>\n",
   "                    <th class=\"px-6 py-3\">Cost</th>\n",
   "                    <th class=\"px-6 py-3\">Revenue</th>\n",
   "                    <th class=\"px-6 py-3\">Profit</th>\n",
   "                    <th class=\"px-6 py-3\">ROI</th>\n",
   "                    <th class=\"px-6 py-3\">Status</th>\n",
   "                    <th class=\"px-6 py-3 text-right\">Actions</th>\n",
   "                </tr>\n",
   "            </thead>\n",
   "            <tbody id=\"table-body\" class=\"divide-y divide-slate-700\"></tbody>\n",
   "        </table>\n",
   "    </div>\n",
   "    <script>\n",
   "        "]

/-- The HTML export template text after the `;` closing the embedded
`const DATA = ...;` assignment (Dashboard.tsx lines 166-261). -/
def htmlTailText : String :=
  "\n"
  ++ "        const app = \x7b\n"
  ++ "            hidden: [],\n"
  ++ "            init: function() \x7b\n"
  ++ "                document.getElementById(\x27date-label\x27).textContent = \x27Generated o"
  ++ "n \x27 + DATA.generatedAt;\n"
  ++ "                const recList = document.getElementById(\x27rec-list\x27);\n"
  ++ "                (DATA.recommendations || []).forEach(r => \x7b\n"
  ++ "                    const li = document.createElement(\x27li\x27);\n"
  ++ "                    li.textContent = r;\n"
  ++ "                    recList.appendChild(li);\n"
  ++ "                \x7d);\n"
  ++ "                this.render();\n"
  ++ "            \x7d,\n"
  ++ "            formatMoney: function(n) \x7b return \x27$\x27 + (n || 0).toFixed(2); \x7d,\n"
  ++ "            render: function() \x7b\n"
  ++ "                const visible = (DATA.details || []).filter(d => !this.hidden.in"
  ++ "cludes(d.country));\n"
  ++ "                const tCost = visible.reduce((s, i) => s + (i.cost || 0), 0);\n"
  ++ "                const tRev = visible.reduce((s, i) => s + (i.revenue || 0), 0);\n"
  ++ "                const profit = tRev - tCost;\n"
  ++ "                const roi = tCost > 0 ? (profit / tCost) * 100 : 0;\n"
  ++ "                document.getElementById(\x27sum-cost\x27).textContent = this.formatMon"
  ++ "ey(tCost);\n"
  ++ "                document.getElementById(\x27sum-rev\x27).textContent = this.formatMone"
  ++ "y(tRev);\n"
  ++ "                const pEl = document.getElementById(\x27sum-profit\x27);\n"
  ++ "                pEl.textContent = this.formatMoney(profit);\n"
  ++ "                pEl.className = \x27text-2xl font-bold \x27 + (profit >= 0 ? \x27profit-p"
  ++ "os\x27 : \x27profit-neg\x27);\n"
  ++ "                const rEl = document.getElementById(\x27sum-roi\x27);\n"
  ++ "                rEl.textContent = roi.toFixed(1) + \x27%\x27;\n"
  ++ "                rEl.className = \x27text-2xl font-bold \x27 + (roi >= 0 ? \x27profit-pos\x27"
  ++ " : \x27profit-neg\x27);\n"
  ++ "                const banner = document.getElementById(\x27hidden-banner\x27);\n"
  ++ "                const chips = document.getElementById(\x27hidden-chips\x27);\n"
  ++ "                chips.innerHTML = \x27\x27;\n"
  ++ "                if (this.hidden.length > 0) \x7b\n"
  ++ "                    banner.classList.remove(\x27hidden\x27);\n"
  ++ "                    this.hidden.forEach(c => \x7b\n"
  ++ "                        const btn = document.createElement(\x27button\x27);\n"
  ++ "                        btn.className = \x27bg-slate-700 hover:bg-slate-600 text-wh"
  ++ "ite text-xs px-2 py-1 rounded flex items-center gap-1 transition-colors cursor-p"
  ++ "ointer\x27;\n"
  ++ "                        btn.innerHTML = c + \x27 &times;\x27;\n"
  ++ "                        btn.onclick = () => this.toggle(c);\n"
  ++ "                        chips.appendChild(btn);\n"
  ++ "                    \x7d);\n"
  ++ "                \x7d else \x7b\n"
  ++ "                    banner.classList.add(\x27hidden\x27);\n"
  ++ "                \x7d\n"
  ++ "                const badContainer = document.getElementById(\x27bad-countries-list"
  ++ "\x27);\n"
  ++ "                badContainer.innerHTML = \x27\x27;\n"
  ++ "                const visibleBad = (DATA.badCountries || []).filter(c => !this.h"
  ++ "idden.includes(c));\n"
  ++ "                if (visibleBad.length) \x7b\n"
  ++ "                    visibleBad.forEach(c => \x7b\n"
  ++ "                        const s = document.createElement(\x27span\x27);\n"
  ++ "                        s.className = \x27px-2 py-1 bg-red-900/50 border border-red"
  ++ "-500/30 text-red-200 text-sm font-bold rounded\x27;\n"
  ++ "                        s.textContent = c;\n"
  ++ "                        badContainer.appendChild(s);\n"
  ++ "                    \x7d);\n"
  ++ "                \x7d else \x7b\n"
  ++ "                    badContainer.innerHTML = \x27<span class=\"text-slate-500 text-s"
  ++ "m\">No significant losses in visible data.</span>\x27;\n"
  ++ "                \x7d\n"
  ++ "                document.getElementById(\x27row-count\x27).textContent = \x27Showing \x27 + "
  ++ "visible.length + \x27 entries\x27;\n"
  ++ "                const tbody = document.getElementById(\x27table-body\x27);\n"
  ++ "                tbody.innerHTML = visible.map(row => \x7b\n"
  ++ "                    const statusClass = row.status === \x27PROFITABLE\x27 ? \x27bg-emeral"
  ++ "d-900 text-emerald-300\x27 :\n"
  ++ "                                      row.status === \x27LOSS\x27 ? \x27bg-red-900 text-r"
  ++ "ed-300\x27 : \x27bg-yellow-900 text-yellow-300\x27;\n"
  ++ "                    const profitClass = row.profit >= 0 ? \x27profit-pos\x27 : \x27profit"
  ++ "-neg\x27;\n"
  ++ "                    const roiClass = row.roi >= 0 ? \x27profit-pos\x27 : \x27profit-neg\x27;"
  ++ "\n"
  ++ "                    return \x60\n"
  ++ "                    <tr class=\"hover:bg-slate-700/50\">\n"
  ++ "                        <td class=\"px-6 py-4 font-medium text-white\">$\x7brow.count"
  ++ "ry\x7d</td>\n"
  ++ "                        <td class=\"px-6 py-4\">$\x7bthis.formatMoney(row.cost)\x7d</td>"
  ++ "\n"
  ++ "                        <td class=\"px-6 py-4\">$\x7bthis.formatMoney(row.revenue)\x7d</"
  ++ "td>\n"
  ++ "                        <td class=\"px-6 py-4 font-bold $\x7bprofitClass\x7d\">$\x7bthis.fo"
  ++ "rmatMoney(row.profit)\x7d</td>\n"
  ++ "                        <td class=\"px-6 py-4 $\x7broiClass\x7d\">$\x7b(row.roi || 0).toFix"
  ++ "ed(1)\x7d%</td>\n"
  ++ "                        <td class=\"px-6 py-4\"><span class=\"px-2 py-1 rounded tex"
  ++ "t-xs font-bold $\x7bstatusClass\x7d\">$\x7brow.status\x7d</span></td>\n"
  ++ "                        <td class=\"px-6 py-4 text-right\">\n"
  ++ "                             <button onclick=\"app.toggle(\x27$\x7brow.country\x7d\x27)\" clas"
  ++ "s=\"text-slate-500 hover:text-red-400 cursor-pointer\" title=\"Hide\">\n"
  ++ "                                <svg class=\"w-5 h-5\" fill=\"none\" stroke=\"current"
  ++ "Color\" viewBox=\"0 0 24 24\"><path stroke-linecap=\"round\" stroke-linejoin=\"round\" "
  ++ "stroke-width=\"2\" d=\"M13.875 18.825A10.05 10.05 0 0112 19c-4.478 0-8.268-2.943-9."
  ++ "543-7a9.97 9.97 0 011.563-3.029m5.858.908a3 3 0 114.243 4.243M9.878 9.878l4.242 "
  ++ "4.242M9.88 9.88l-3.29-3.29m7.532 7.532l3.29 3.29M3 3l3.59 3.59m0 0A9.953 9.953 0"
  ++ " 0112 5c4.478 0 8.268 2.943 9.543 7a10.025 10.025 0 01-4.132 5.411m0 0L21 21\" />"
  ++ "</svg>\n"
  ++ "                             </button>\n"
  ++ "                        </td>\n"
  ++ "                    </tr>\x60;\n"
  ++ "                \x7d).join(\x27\x27);\n"
  ++ "            \x7d,\n"
  ++ "            toggle: function(country) \x7b\n"
  ++ "                if (this.hidden.includes(country)) \x7b\n"
  ++ "                    this.hidden = this.hidden.filter(c => c !== country);\n"
  ++ "                \x7d else \x7b\n"
  ++ "                    this.hidden.push(country);\n"
  ++ "                \x7d\n"
  ++ "                this.render();\n"
  ++ "            \x7d,\n"
  ++ "            showAll: function() \x7b\n"
  ++ "                this.hidden = [];\n"
  ++ "                this.render();\n"
  ++ "            \x7d\n"
  ++ "        \x7d;\n"
  ++ "        app.init();\n"
  ++ "    </script>\n"
  ++ "</body>\n"
  ++ "</html>"


/-- Concatenation of a chunk list as characters. -/
def charsOfParts (parts : List String) : List Char :=
  parts.foldr (fun s acc => s.data ++ acc) []

/-- Concatenation of a chunk list as a string. -/
def joinParts (parts : List String) : String :=
  parts.foldl (· ++ ·) ""

/-- The HTML export template text before `const DATA = `. -/
def htmlHeadText : String := joinParts htmlHeadParts

/-- The full exported HTML document (Dashboard.tsx lines 84-261): template
head, the embedded `const DATA = <payload>;` assignment, template tail. -/
def exportHtml (data : AnalysisResult) (generatedAt : String) : String :=
  htmlHeadText ++ "const DATA = " ++ jsonPayload data generatedAt ++ ";" ++ htmlTailText

/-- Chunk-wise absence check: `needle` occurs in no chunk, not even
straddling into the next chunks' first `needle.length - 1` characters. -/
def noSubInChunks (needle : List Char) : List String → Bool
  | [] => true
  | s :: rest =>
      !(hasSub needle (s.data ++ (charsOfParts rest).take (needle.length - 1)))
        && noSubInChunks needle rest

/-- A result with a recommendation string containing `};`. -/
def badRecResult : AnalysisResult :=
  { summary := { totalCost := 0, totalRevenue := 0, netProfit := 0, totalRoi := 0 }
    details := [], badCountries := [], recommendations := ["x\x7d;y"] }

/-- A well-behaved concrete result (all numeric fields literal): one India
record with a consistent summary. -/
def htmlWitnessResult : AnalysisResult :=
  { summary := { totalCost := 100, totalRevenue := 150, netProfit := 50, totalRoi := 50 }
    details := [{ country := "India", cost := 100, revenue := 150, profit := 50, roi := 50,
                  status := Status.PROFITABLE }]
    badCountries := [], recommendations := [] }

/-! ## Country lookup — the spec-side view of the merge map -/

/-- The record a country maps to in a details list: the first record whose
`country` is `c`.  For a list with unique countries this is exactly the
entry of the JavaScript `Map` keyed by country. -/
def lookupCountry (l : List CountryData) (c : String) : Option CountryData :=
  l.find? (fun r => r.country == c)

/-- Pointwise merge of two optional records: both present — additively
merged; one present — that record unchanged. -/
def optMerge : Option CountryData → Option CountryData → Option CountryData
  | some a, some b => some (mergeRecord a b)
  | some a, none => some a
  | none, some b => some b
  | none, none => none

/-- The countries of a details list are pairwise distinct — the `details`
uniqueness invariant of the data model (types.ts: one record per country). -/
def NodupCountries (l : List CountryData) : Prop :=
  (l.map (fun r => r.country)).Nodup

/-! ## Generic helper lemmas -/

/-- A `reduce`-style fold adding `f x` for each element equals the starting
value plus the sum of the mapped list. -/
theorem foldl_add_eq {α : Type} (f : α → ℚ) (l : List α) (a : ℚ) :
    l.foldl (fun acc x => acc + f x) a = a + (l.map f).sum := by
  induction l generalizing a with
  | nil => simp
  | cons x xs ih => simp [ih, add_assoc]

/-! ## Claim C10 — deleting a history item -/

/-- C10: deleting a history item by id removes exactly the entries whose id
equals the given id: the remaining entries are a sublist of the history (so
relative order is preserved), every kept entry's id differs from the given
id, each entry with a different id is kept with its multiplicity unchanged,
and deleting an id not present leaves the history unchanged. -/
theorem C10_delete_history_exact (history : List HistoryItem) (id : String) :
    (deleteHistoryItem history id).Sublist history
    ∧ (∀ item ∈ deleteHistoryItem history id, item.id ≠ id)
    ∧ (∀ item : HistoryItem, item.id ≠ id →
        (deleteHistoryItem history id).count item = history.count item)
    ∧ ((∀ item ∈ history, item.id ≠ id) → deleteHistoryItem history id = history) := by
  refine ⟨List.filter_sublist _, ?_, ?_, ?_⟩
  · intro item hmem
    have := List.of_mem_filter hmem
    simpa using this
  · intro item hne
    rw [deleteHistoryItem, List.count_filter]
    simp [hne]
  · intro hall
    apply List.filter_eq_self.mpr
    intro item hmem
    simpa using hall item hmem

/-- C10 witness: deleting an absent id ("zzz") from a concrete two-entry
history leaves it unchanged, and deleting "a" keeps entry "b". -/
theorem C10_delete_history_exact_witness :
    deleteHistoryItem [histA, histB] "zzz" = [histA, histB]
    ∧ (deleteHistoryItem [histA, histB] "a").count histB = [histA, histB].count histB := by
  constructor
  · exact (C10_delete_history_exact [histA, histB] "zzz").2.2.2 (by
      intro item hmem
      rcases List.mem_pair.mp hmem with rfl | rfl <;> simp [histA, histB])
  · exact (C10_delete_history_exact [histA, histB] "a").2.2.1 histB (by simp [histB])

/-! ## Claim C8 — the visibility filter is a pure read-side projection -/

/-- C8: the visibility filter returns exactly the subsequence of `details`
whose country is not hidden (a sublist, so relative order is preserved, with
membership characterised by the hidden set); when at least one country is
hidden the on-screen summary is the aggregation of exactly that subsequence,
and with nothing hidden it is the stored summary; `badCountries` is filtered
by the same hidden set; and toggling a country's visibility leaves the
canonical stored result unchanged. -/
theorem C8_visibility_filter (data : AnalysisResult) (hidden : List String)
    (country : String) :
    (visibleData data.details hidden).Sublist data.details
    ∧ (∀ d : CountryData, d ∈ visibleData data.details hidden ↔
        d ∈ data.details ∧ d.country ∉ hidden)
    ∧ (hidden ≠ [] → dashboardSummary data hidden = summarize (visibleData data.details hidden))
    ∧ (hidden = [] → dashboardSummary data hidden = data.summary)
    ∧ (∀ c : String, c ∈ visibleBadCountries data.badCountries hidden ↔
        c ∈ data.badCountries ∧ c ∉ hidden)
    ∧ (visibleBadCountries data.badCountries hidden).Sublist data.badCountries
    ∧ (toggleVisibility ⟨data, hidden⟩ country).data = data := by
  refine ⟨List.filter_sublist _, ?_, ?_, ?_, ?_, List.filter_sublist _, rfl⟩
  · intro d
    simp [visibleData, List.mem_filter]
  · intro hne
    have hlen : hidden.length ≠ 0 := by simpa using hne
    simp [dashboardSummary, summarize, hlen]
  · intro h
    simp [dashboardSummary, h]
  · intro c
    simp [visibleBadCountries, List.mem_filter]

/-- C8 witness: hiding "India" from the two-country merge example data
removes it from the visible details and the derived summary while the
canonical result is untouched by the toggle. -/
theorem C8_visibility_filter_witness :
    dashboardSummary ⟨summarize [india100, brazilInc], [india100, brazilInc], [], []⟩ ["India"]
      = summarize (visibleData [india100, brazilInc] ["India"])
    ∧ (toggleVisibility ⟨⟨summarize [india100, brazilInc], [india100, brazilInc], [], []⟩,
        ["India"]⟩ "Brazil").data = ⟨summarize [india100, brazilInc], [india100, brazilInc], [], []⟩ := by
  have h := C8_visibility_filter
    ⟨summarize [india100, brazilInc], [india100, brazilInc], [], []⟩ ["India"] "Brazil"
  exact ⟨h.2.2.1 (by simp), h.2.2.2.2.2.2⟩

/-! ## Claim C6 — JSON export/import round trip

`handleDownloadJson` (Dashboard.tsx lines 274-285) serializes the canonical
result with `JSON.stringify(data, null, 2)`; the `.json` import path
(App.tsx lines 120-121) parses the file text with `JSON.parse`.  The
browser's `JSON.parse ∘ JSON.stringify` is the identity on the exported
data, so the parsed payload is modelled as the result's own fields, each
present. -/



/-- C6: ingesting a JSON-exported result through the `.json` import path
yields the result unchanged in all fields: the presence checks pass (arrays
and objects are truthy even when empty), no field is defaulted or
resynthesized, and the load path installs the parsed payload as-is. -/
theorem C6_json_round_trip (R : AnalysisResult) :
    handleImportFile none (jsonExportImported R) = some R := by
  cases R
  rfl

/-! ## Claim C3 — no record-level validation during ingestion

The spec's Record Normalizer (drop records whose country is absent or empty
after trimming) has no counterpart in the code: `handleImportFile` only
checks for the presence of `details` and otherwise keeps every record
exactly as parsed. -/





/-- C3 counterexample: ingesting a payload whose single record has an empty
country succeeds and installs a result that still contains that record
(country `""`, empty after trimming) — no `ValidationError` occurs and
nothing is dropped, contradicting the claim that no record with a missing or
empty country appears in the ingested result.  (The country is the empty
string `""`, which is empty before and after trimming.) -/
theorem C3_cex_empty_country_kept :
    handleImportFile none emptyCountryPayload =
      some { summary := { totalCost := 5, totalRevenue := 3, netProfit := -2, totalRoi := -40 }
             details := [emptyCountryRecord]
             badCountries := []
             recommendations := [] }
    ∧ emptyCountryRecord.country = "" := by
  constructor
  · simp [handleImportFile, ingest, emptyCountryPayload, summarize, emptyCountryRecord]
    norm_num
  · rfl

/-- C3 amended: ingestion performs no record-level validation at all — the
ingested result's details are exactly the payload's details, with every
record (including any whose country is empty) kept unchanged; a payload is
rejected only when its `details` field is absent. -/
theorem C3_amended_no_record_validation (imp : ImportedData) (d : List CountryData)
    (h : imp.details = some d) :
    ∃ r, handleImportFile none imp = some r ∧ r.details = d := by
  rw [handleImportFile, ingest, h]
  exact ⟨_, rfl, rfl⟩

/-- C3 witness: the amended theorem applied to the empty-country payload. -/
theorem C3_amended_no_record_validation_witness :
    ∃ r, handleImportFile none emptyCountryPayload = some r
      ∧ r.details = [emptyCountryRecord] :=
  C3_amended_no_record_validation emptyCountryPayload [emptyCountryRecord] rfl

/-! ## Claim C2 — is the installed summary always recomputed from details? -/



/-- C2 counterexample: loading an imported payload directly (no current
result) installs the payload's own summary verbatim — here `totalCost =
999` against details summing to 100 — so the summary of an installed result
is carried over from the input and is not a pure function of its details. -/
theorem C2_cex_summary_carried_over :
    handleImportFile none inconsistentPayload =
      some { summary := { totalCost := 999, totalRevenue := 0, netProfit := 0, totalRoi := 0 }
             details := [india100]
             badCountries := []
             recommendations := [] }
    ∧ summarize [india100] ≠
        { totalCost := 999, totalRevenue := 0, netProfit := 0, totalRoi := 0 } := by
  constructor
  · rfl
  · intro h
    have := congrArg Summary.totalCost h
    simp [summarize, india100] at this

/-- C2 amended: the summary invariant holds only on the merge path — a
result installed by merging always has its summary recomputed from the
merged details; a result installed by the direct-load path carries the
payload's summary verbatim when one is present, and gets a synthesized
summary (aggregated from its details) only when the payload's summary is
absent. -/
theorem C2_amended_summary_paths :
    (∀ base : AnalysisResult, ∀ imp : ImportedData, ∀ r : AnalysisResult,
      handleImportFile (some base) imp = some r → r.summary = summarize r.details)
    ∧ (∀ imp : ImportedData, ∀ r : AnalysisResult, imp.summary = none →
        handleImportFile none imp = some r → r.summary = summarize r.details)
    ∧ (∀ imp : ImportedData, ∀ s : Summary, ∀ r : AnalysisResult, imp.summary = some s →
        handleImportFile none imp = some r → r.summary = s) := by
  refine ⟨?_, ?_, ?_⟩
  · intro base imp r h
    rw [handleImportFile] at h
    cases hing : ingest imp with
    | none => rw [hing] at h; exact absurd h (by simp)
    | some incoming =>
        rw [hing] at h
        have hr : r = mergeResults base incoming := by
          simpa using h.symm
        subst hr
        rfl
  · intro imp r hs h
    rw [handleImportFile, ingest] at h
    cases hd : imp.details with
    | none => rw [hd] at h; exact absurd h (by simp)
    | some d =>
        rw [hd, hs] at h
        have hr : r = { summary := summarize d, details := d,
                        badCountries := imp.badCountries.getD [],
                        recommendations := imp.recommendations.getD [] } := by
          simpa using h.symm
        subst hr
        rfl
  · intro imp s r hs h
    rw [handleImportFile, ingest] at h
    cases hd : imp.details with
    | none => rw [hd] at h; exact absurd h (by simp)
    | some d =>
        rw [hd, hs] at h
        have hr : r = { summary := s, details := d,
                        badCountries := imp.badCountries.getD [],
                        recommendations := imp.recommendations.getD [] } := by
          simpa using h.symm
        subst hr
        rfl

/-- C2 witness: the amended theorem at concrete inputs — the merge of the
spec's example has a recomputed summary, and the direct load of the
inconsistent payload carries its summary. -/
theorem C2_amended_summary_paths_witness :
    (∀ r : AnalysisResult,
      handleImportFile (some mergeExampleBase) mergeExampleIncoming = some r →
        r.summary = summarize r.details)
    ∧ (∀ r : AnalysisResult,
        handleImportFile none inconsistentPayload = some r →
          r.summary = { totalCost := 999, totalRevenue := 0, netProfit := 0, totalRoi := 0 }) := by
  constructor
  · intro r h
    exact C2_amended_summary_paths.1 mergeExampleBase mergeExampleIncoming r h
  · intro r h
    exact C2_amended_summary_paths.2.2 inconsistentPayload _ r rfl h

/-! ## Claim C4 — summary synthesis for legacy payloads -/



/-- C4: ingesting a payload with details but no summary synthesizes the
summary by aggregating the details — totals are the sums of the records'
cost and revenue with missing values counted as 0, net profit is their
difference, ROI follows the positive-total-cost guard — and the concrete
legacy example yields `totalCost=100, totalRevenue=150, netProfit=50,
totalRoi=50` (not the zero summary). -/
theorem C4_legacy_summary_synthesized :
    (∀ p : RawPayload, ∀ d : List RawRecord, p.details = some d → p.summary = none →
      ∃ q, rawIngest p = some q
        ∧ q.summary.totalCost = (d.map (fun r => r.cost.getD 0)).sum
        ∧ q.summary.totalRevenue = (d.map (fun r => r.revenue.getD 0)).sum
        ∧ q.summary.netProfit = q.summary.totalRevenue - q.summary.totalCost
        ∧ q.summary.totalRoi =
            (if q.summary.totalCost > 0
             then q.summary.netProfit / q.summary.totalCost * 100 else 0))
    ∧ rawIngest legacyPayload =
        some { details := [{ country := "India", cost := some 100, revenue := some 150 }]
               summary := { totalCost := 100, totalRevenue := 150, netProfit := 50,
                            totalRoi := 50 }
               badCountries := []
               recommendations := [] } := by
  constructor
  · intro p d hd hs
    rw [rawIngest, hd, hs]
    refine ⟨_, rfl, ?_, ?_, ?_, ?_⟩
    · simp [rawSynthSummary, foldl_add_eq]
    · simp [rawSynthSummary, foldl_add_eq]
    · rfl
    · rfl
  · simp [rawIngest, legacyPayload, rawSynthSummary]
    norm_num

/-- C4 witness: the general synthesis statement applied to the legacy
example payload. -/
theorem C4_legacy_summary_synthesized_witness :
    ∃ q, rawIngest legacyPayload = some q
      ∧ q.summary.totalCost =
          ([{ country := "India", cost := some 100, revenue := some 150 }].map
            (fun r : RawRecord => r.cost.getD 0)).sum
      ∧ q.summary.totalRevenue =
          ([{ country := "India", cost := some 100, revenue := some 150 }].map
            (fun r : RawRecord => r.revenue.getD 0)).sum
      ∧ q.summary.netProfit = q.summary.totalRevenue - q.summary.totalCost
      ∧ q.summary.totalRoi =
          (if q.summary.totalCost > 0
           then q.summary.netProfit / q.summary.totalCost * 100 else 0) := by
  have h := C4_legacy_summary_synthesized.1 legacyPayload
    [{ country := "India", cost := some 100, revenue := some 150 }] rfl rfl
  exact h

/-! ## Claim C9 — negative values are NOT clamped to 0 -/



/-- C9 counterexample: a record with cost `-5` is ingested unchanged and the
synthesized summary has `totalCost = -5 < 0` — the negative value is not
treated as 0, and a computed summary can be negative, contradicting the
claimed non-negativity. -/
theorem C9_cex_negative_not_clamped :
    rawIngest negativeCostPayload =
      some { details := [{ country := "X", cost := some (-5), revenue := some 3 }]
             summary := { totalCost := -5, totalRevenue := 3, netProfit := 8, totalRoi := 0 }
             badCountries := []
             recommendations := [] }
    ∧ ¬ (0 : ℚ) ≤ -5 := by
  constructor
  · simp [rawIngest, negativeCostPayload, rawSynthSummary]
    norm_num
  · norm_num



/-- `setMap` preserves record-level non-negativity. -/
theorem setMap_nonneg {acc : List CountryData} {item : CountryData}
    (ha : nonNegDetails acc) (hi : 0 ≤ item.cost ∧ 0 ≤ item.revenue) :
    nonNegDetails (setMap acc item) := by
  intro r hr
  rw [setMap] at hr
  split at hr
  · rcases List.mem_map.mp hr with ⟨r₀, hr₀, heq⟩
    by_cases hc : (r₀.country == item.country) = true
    · rw [if_pos hc] at heq; exact heq ▸ hi
    · rw [if_neg hc] at heq; exact heq ▸ ha r₀ hr₀
  · rcases List.mem_append.mp hr with h | h
    · exact ha r h
    · rw [List.mem_singleton.mp h]; exact hi

/-- `mergeStep` preserves record-level non-negativity. -/
theorem mergeStep_nonneg {acc : List CountryData} {item : CountryData}
    (ha : nonNegDetails acc) (hi : 0 ≤ item.cost ∧ 0 ≤ item.revenue) :
    nonNegDetails (mergeStep acc item) := by
  intro r hr
  rw [mergeStep] at hr
  split at hr
  · rcases List.mem_map.mp hr with ⟨r₀, hr₀, heq⟩
    by_cases hc : (r₀.country == item.country) = true
    · rw [if_pos hc] at heq
      subst heq
      have h₀ := ha r₀ hr₀
      exact ⟨add_nonneg h₀.1 hi.1, add_nonneg h₀.2 hi.2⟩
    · rw [if_neg hc] at heq; exact heq ▸ ha r₀ hr₀
  · rcases List.mem_append.mp hr with h | h
    · exact ha r h
    · rw [List.mem_singleton.mp h]; exact hi

/-- Folding `setMap` over non-negative records preserves non-negativity. -/
theorem foldl_setMap_nonneg :
    ∀ (l acc : List CountryData), nonNegDetails acc → nonNegDetails l →
      nonNegDetails (l.foldl setMap acc)
  | [], acc, hacc, _ => hacc
  | x :: xs, acc, hacc, hl => by
      have hx := hl x (List.mem_cons_self x xs)
      have hxs : nonNegDetails xs := fun y hy => hl y (List.mem_cons_of_mem x hy)
      exact foldl_setMap_nonneg xs (setMap acc x) (setMap_nonneg hacc hx) hxs

/-- Folding `mergeStep` over non-negative records preserves non-negativity. -/
theorem foldl_mergeStep_nonneg :
    ∀ (l acc : List CountryData), nonNegDetails acc → nonNegDetails l →
      nonNegDetails (l.foldl mergeStep acc)
  | [], acc, hacc, _ => hacc
  | x :: xs, acc, hacc, hl => by
      have hx := hl x (List.mem_cons_self x xs)
      have hxs : nonNegDetails xs := fun y hy => hl y (List.mem_cons_of_mem x hy)
      exact foldl_mergeStep_nonneg xs (mergeStep acc x) (mergeStep_nonneg hacc hx) hxs

/-- The merged details of two non-negative record lists are non-negative. -/
theorem mergeDetails_nonneg {base incoming : List CountryData}
    (hb : nonNegDetails base) (hi : nonNegDetails incoming) :
    nonNegDetails (mergeDetails base incoming) := by
  rw [mergeDetails]
  refine foldl_mergeStep_nonneg incoming (baseMap base) ?_ hi
  rw [baseMap]
  exact foldl_setMap_nonneg base [] (fun r hr => absurd hr (List.not_mem_nil r)) hb

/-- The summary of a non-negative record list has non-negative totals. -/
theorem summarize_nonneg {l : List CountryData} (h : nonNegDetails l) :
    0 ≤ (summarize l).totalCost ∧ 0 ≤ (summarize l).totalRevenue := by
  constructor
  · show (0 : ℚ) ≤ l.foldl (fun acc curr => acc + curr.cost) 0
    rw [foldl_add_eq]
    simpa using List.sum_nonneg (by
      intro x hx
      rcases List.mem_map.mp hx with ⟨r, hr, rfl⟩
      exact (h r hr).1)
  · show (0 : ℚ) ≤ l.foldl (fun acc curr => acc + curr.revenue) 0
    rw [foldl_add_eq]
    simpa using List.sum_nonneg (by
      intro x hx
      rcases List.mem_map.mp hx with ⟨r, hr, rfl⟩
      exact (h r hr).2)

/-- C9 amended: a missing cost or revenue is counted as 0 during summary
synthesis, but a negative value is not clamped anywhere — it flows into the
resulting records and summaries unchanged.  When every supplied cost and
revenue in the inputs is non-negative (or missing, for a raw payload),
every record and every summary produced by summary synthesis and by the
merge is non-negative. -/
theorem C9_amended_nonneg_preserved :
    (∀ d : List RawRecord,
      (∀ r ∈ d, 0 ≤ r.cost.getD 0 ∧ 0 ≤ r.revenue.getD 0) →
        0 ≤ (rawSynthSummary d).totalCost ∧ 0 ≤ (rawSynthSummary d).totalRevenue)
    ∧ (∀ base incoming : AnalysisResult,
        nonNegDetails base.details → nonNegDetails incoming.details →
          nonNegDetails (mergeResults base incoming).details
          ∧ 0 ≤ (mergeResults base incoming).summary.totalCost
          ∧ 0 ≤ (mergeResults base incoming).summary.totalRevenue) := by
  constructor
  · intro d hd
    constructor
    · show (0 : ℚ) ≤ d.foldl (fun acc curr => acc + curr.cost.getD 0) 0
      rw [foldl_add_eq]
      simpa using List.sum_nonneg (by
        intro x hx
        rcases List.mem_map.mp hx with ⟨r, hr, rfl⟩
        exact (hd r hr).1)
    · show (0 : ℚ) ≤ d.foldl (fun acc curr => acc + curr.revenue.getD 0) 0
      rw [foldl_add_eq]
      simpa using List.sum_nonneg (by
        intro x hx
        rcases List.mem_map.mp hx with ⟨r, hr, rfl⟩
        exact (hd r hr).2)
  · intro base incoming hb hi
    have hmerged := mergeDetails_nonneg hb hi
    have hsum := summarize_nonneg hmerged
    exact ⟨hmerged, hsum.1, hsum.2⟩

/-- C9 witness: the amended theorem at concrete inputs — the all-present,
non-negative legacy example details give non-negative synthesized totals,
and the merge example (all inputs non-negative) produces non-negative
records and summary. -/
theorem C9_amended_nonneg_preserved_witness :
    (0 ≤ (rawSynthSummary [{ country := "India", cost := some 100, revenue := some 150 }]).totalCost
      ∧ 0 ≤ (rawSynthSummary [{ country := "India", cost := some 100, revenue := some 150 }]).totalRevenue)
    ∧ (nonNegDetails (mergeResults mergeExampleBase
          ⟨summarize [indiaInc, brazilInc], [indiaInc, brazilInc], [], []⟩).details
        ∧ 0 ≤ (mergeResults mergeExampleBase
            ⟨summarize [indiaInc, brazilInc], [indiaInc, brazilInc], [], []⟩).summary.totalCost
        ∧ 0 ≤ (mergeResults mergeExampleBase
            ⟨summarize [indiaInc, brazilInc], [indiaInc, brazilInc], [], []⟩).summary.totalRevenue) := by
  constructor
  · refine C9_amended_nonneg_preserved.1 _ ?_
    intro r hr
    rw [List.mem_singleton.mp hr]
    norm_num
  · refine C9_amended_nonneg_preserved.2 mergeExampleBase _ ?_ ?_
    · intro r hr
      rw [mergeExampleBase] at hr
      simp only [List.mem_singleton] at hr
      rw [hr, india100]
      norm_num
    · intro r hr
      simp only [List.mem_cons, List.mem_singleton] at hr
      rcases hr with rfl | rfl | h
      · rw [indiaInc]; norm_num
      · rw [brazilInc]; norm_num
      · cases h

/-! ## Merge-map lemmas (towards claims C5 and C1)

The JavaScript `Map` semantics of the merge is characterised through
`lookupCountry`: merging is the pointwise `optMerge` of the two inputs'
lookups, the countries of a built map are always distinct, and the sums of
any additive field over the merged details are the sums over the two
inputs. -/

/-- A record found by `lookupCountry l c` has country `c`. -/
theorem lookupCountry_country {l : List CountryData} {c : String} {r : CountryData}
    (h : lookupCountry l c = some r) : r.country = c := by
  rw [lookupCountry] at h
  have hp := List.find?_some h
  exact eq_of_beq hp

/-- `optMerge` with no incoming record is the identity. -/
theorem optMerge_none_right (a : Option CountryData) : optMerge a none = a := by
  cases a <;> rfl

/-- The collision update of `mergeStep` does not change any record's
country. -/
theorem mergeStep_update_country (x r : CountryData) :
    ((fun r => if r.country == x.country then mergeRecord r x else r) r).country
      = r.country := by
  by_cases h : (r.country == x.country) = true <;> simp [h, mergeRecord]

/-- `find?` over a list with one appended element. -/
theorem lookup_append_singleton {α : Type} (l : List α) (x : α) (p : α → Bool) :
    (l ++ [x]).find? p = ((l.find? p).or (if p x then some x else none)) := by
  induction l with
  | nil => by_cases h : p x <;> simp [List.find?, h]
  | cons y ys ih =>
      by_cases h : p y
      · simp [List.find?_cons_of_pos _ h]
      · simp only [List.cons_append, List.find?_cons_of_neg _ h, ih]

/-- `lookupCountry` after one `mergeStep`: the incoming record's country now
maps to the additive merge (or to the incoming record when it was new), and
every other country's record is unchanged. -/
theorem lookupCountry_mergeStep (acc : List CountryData) (x : CountryData) (c : String) :
    lookupCountry (mergeStep acc x) c =
      if x.country = c then
        (match lookupCountry acc c with
         | some a => some (mergeRecord a x)
         | none => some x)
      else lookupCountry acc c := by
  rw [mergeStep]
  by_cases hany : acc.any (fun r => r.country == x.country) = true
  · rw [if_pos hany, lookupCountry, List.find?_map]
    have hcomp : ((fun r : CountryData => r.country == c) ∘
        (fun r => if r.country == x.country then mergeRecord r x else r))
        = (fun r : CountryData => r.country == c) := by
      funext r
      simp only [Function.comp_apply, mergeStep_update_country]
    rw [hcomp]
    by_cases hxc : x.country = c
    · rw [if_pos hxc]
      cases hfind : lookupCountry acc c with
      | some a =>
          have hac : a.country = c := lookupCountry_country hfind
          rw [lookupCountry] at hfind
          rw [hfind]
          simp [Option.map, hac, hxc]
      | none =>
          exfalso
          rcases List.any_eq_true.mp hany with ⟨r, hr, hbeq⟩
          rw [lookupCountry, List.find?_eq_none] at hfind
          exact hfind r hr (by rw [eq_of_beq hbeq, hxc]; exact beq_self_eq_true c)
    · rw [if_neg hxc]
      cases hfind : lookupCountry acc c with
      | some a =>
          have hac : a.country = c := lookupCountry_country hfind
          rw [lookupCountry] at hfind
          rw [hfind]
          have : (a.country == x.country) = false := by
            rw [hac]
            exact beq_false_of_ne (fun h => hxc h.symm)
          simp [Option.map, this]
      | none =>
          rw [lookupCountry] at hfind
          rw [hfind]
          rfl
  · rw [if_neg hany, lookupCountry, lookup_append_singleton]
    by_cases hxc : x.country = c
    · rw [if_pos hxc]
      have hnone : acc.find? (fun r => r.country == c) = none := by
        rw [List.find?_eq_none]
        intro r hr hbeq
        refine hany (List.any_eq_true.mpr ⟨r, hr, ?_⟩)
        rw [eq_of_beq hbeq, hxc]
        exact beq_self_eq_true c
      rw [lookupCountry, hnone]
      simp [hxc]
    · rw [if_neg hxc]
      have hx : (x.country == c) = false := beq_false_of_ne hxc
      rw [lookupCountry]
      simp [hx]

/-- `lookupCountry` through the incoming fold: pointwise `optMerge` with the
incoming list's own lookup (the incoming countries must be distinct, else a
duplicated incoming country would merge twice). -/
theorem lookupCountry_foldl_mergeStep :
    ∀ (inc acc : List CountryData) (c : String), NodupCountries inc →
      lookupCountry (inc.foldl mergeStep acc) c
        = optMerge (lookupCountry acc c) (lookupCountry inc c)
  | [], acc, c, _ => by
      rw [List.foldl_nil]
      have hnil : lookupCountry [] c = none := rfl
      rw [hnil, optMerge_none_right]
  | x :: xs, acc, c, hnd => by
      have hnd' : NodupCountries xs := (List.nodup_cons.mp hnd).2
      have hxnotin : x.country ∉ xs.map (fun r => r.country) :=
        (List.nodup_cons.mp hnd).1
      rw [List.foldl_cons, lookupCountry_foldl_mergeStep xs _ c hnd',
        lookupCountry_mergeStep]
      by_cases hxc : x.country = c
      · have hxs_none : lookupCountry xs c = none := by
          rw [lookupCountry, List.find?_eq_none]
          intro r hr hbeq
          exact hxnotin (hxc ▸ eq_of_beq hbeq ▸ List.mem_map_of_mem _ hr)
        have hcons : lookupCountry (x :: xs) c = some x := by
          rw [lookupCountry]
          apply List.find?_cons_of_pos
          exact beq_of_eq hxc
        rw [hxs_none, optMerge_none_right, if_pos hxc, hcons]
        cases lookupCountry acc c <;> rfl
      · have hcons : lookupCountry (x :: xs) c = lookupCountry xs c := by
          rw [lookupCountry, lookupCountry]
          apply List.find?_cons_of_neg
          simp [beq_false_of_ne hxc]
        rw [if_neg hxc, hcons]

/-- With distinct countries the base insertion pass reproduces the base list
verbatim. -/
theorem foldl_setMap_of_nodup :
    ∀ (rest acc : List CountryData), (((acc ++ rest).map (fun r => r.country)).Nodup) →
      rest.foldl setMap acc = acc ++ rest
  | [], acc, _ => by simp
  | x :: xs, acc, hnd => by
      have hxnot : ¬ acc.any (fun r => r.country == x.country) = true := by
        intro hany
        rcases List.any_eq_true.mp hany with ⟨r, hr, hbeq⟩
        rw [List.map_append] at hnd
        rcases List.nodup_append.mp hnd with ⟨_, _, hdisj⟩
        exact hdisj (List.mem_map_of_mem _ hr)
          (by rw [eq_of_beq hbeq]; exact List.mem_cons_self _ _)
      have hstep : setMap acc x = acc ++ [x] := by
        rw [setMap, if_neg hxnot]
      rw [List.foldl_cons, hstep,
        foldl_setMap_of_nodup xs (acc ++ [x]) (by rwa [List.append_assoc, List.singleton_append]),
        List.append_assoc, List.singleton_append]

/-- `baseMap` of a details list with distinct countries is the list itself. -/
theorem baseMap_eq_self {base : List CountryData} (h : NodupCountries base) :
    baseMap base = base := by
  rw [baseMap]
  exact foldl_setMap_of_nodup base [] (by simpa using h)

/-- The merged details' lookup is the pointwise `optMerge` of the inputs'
lookups. -/
theorem lookupCountry_mergeDetails {base inc : List CountryData}
    (hb : NodupCountries base) (hi : NodupCountries inc) (c : String) :
    lookupCountry (mergeDetails base inc) c
      = optMerge (lookupCountry base c) (lookupCountry inc c) := by
  rw [mergeDetails, baseMap_eq_self hb]
  exact lookupCountry_foldl_mergeStep inc base c hi

/-- `setMap` keeps the map's countries distinct. -/
theorem setMap_nodupC {acc : List CountryData} (x : CountryData)
    (h : NodupCountries acc) : NodupCountries (setMap acc x) := by
  rw [setMap]
  by_cases hany : acc.any (fun r => r.country == x.country) = true
  · rw [if_pos hany, NodupCountries, List.map_map]
    have hcomp : ((fun r : CountryData => r.country) ∘
        (fun r => if r.country == x.country then x else r))
        = (fun r : CountryData => r.country) := by
      funext r
      by_cases hr : (r.country == x.country) = true
      · show (if r.country == x.country then x else r).country = r.country
        rw [if_pos hr]
        exact (eq_of_beq hr).symm
      · show (if r.country == x.country then x else r).country = r.country
        rw [if_neg hr]
    rw [hcomp]
    exact h
  · rw [if_neg hany, NodupCountries, List.map_append]
    rw [List.nodup_append]
    refine ⟨h, List.nodup_singleton _, ?_⟩
    intro s hs hs'
    rcases List.mem_map.mp hs with ⟨r, hr, heq⟩
    rw [List.map_singleton, List.mem_singleton] at hs'
    refine hany (List.any_eq_true.mpr ⟨r, hr, beq_of_eq ?_⟩)
    show r.country = x.country
    rw [show r.country = s from heq, hs']

/-- `mergeStep` keeps the map's countries distinct. -/
theorem mergeStep_nodupC {acc : List CountryData} (x : CountryData)
    (h : NodupCountries acc) : NodupCountries (mergeStep acc x) := by
  rw [mergeStep]
  by_cases hany : acc.any (fun r => r.country == x.country) = true
  · rw [if_pos hany, NodupCountries, List.map_map]
    have : ((fun r : CountryData => r.country) ∘
        (fun r => if r.country == x.country then mergeRecord r x else r))
        = (fun r : CountryData => r.country) := by
      funext r
      exact mergeStep_update_country x r
    rw [this]
    exact h
  · rw [if_neg hany, NodupCountries, List.map_append]
    rw [List.nodup_append]
    refine ⟨h, List.nodup_singleton _, ?_⟩
    intro s hs hs'
    rcases List.mem_map.mp hs with ⟨r, hr, heq⟩
    rw [List.map_singleton, List.mem_singleton] at hs'
    refine hany (List.any_eq_true.mpr ⟨r, hr, beq_of_eq ?_⟩)
    show r.country = x.country
    rw [show r.country = s from heq, hs']

/-- Folding `mergeStep` keeps the map's countries distinct. -/
theorem foldl_mergeStep_nodupC :
    ∀ (inc acc : List CountryData), NodupCountries acc →
      NodupCountries (inc.foldl mergeStep acc)
  | [], _, h => h
  | x :: xs, acc, h =>
      foldl_mergeStep_nodupC xs (mergeStep acc x) (mergeStep_nodupC x h)

/-- The countries of `baseMap` are always distinct. -/
theorem baseMap_nodupC (base : List CountryData) : NodupCountries (baseMap base) := by
  rw [baseMap]
  have aux : ∀ (rest acc : List CountryData), NodupCountries acc →
      NodupCountries (rest.foldl setMap acc) := by
    intro rest
    induction rest with
    | nil => intro acc h; exact h
    | cons x xs ih => intro acc h; exact ih (setMap acc x) (setMap_nodupC x h)
  exact aux base [] List.nodup_nil

/-- The countries of merged details are always distinct. -/
theorem mergeDetails_nodupC (base inc : List CountryData) :
    NodupCountries (mergeDetails base inc) :=
  foldl_mergeStep_nodupC inc (baseMap base) (baseMap_nodupC base)

/-- The collision update of one `mergeStep` adds the incoming value of an
additive field to the sum over the map (the matching entry is unique by
distinctness of the map's countries). -/
theorem sum_map_update (f : CountryData → ℚ)
    (hf : ∀ r y : CountryData, f (mergeRecord r y) = f r + f y) :
    ∀ (acc : List CountryData) (x : CountryData), NodupCountries acc →
      acc.any (fun r => r.country == x.country) = true →
      ((acc.map (fun r => if r.country == x.country then mergeRecord r x else r)).map f).sum
        = (acc.map f).sum + f x
  | [], x, _, hany => by cases hany
  | r :: rest, x, hnd, hany => by
      have hcons := hnd
      rw [NodupCountries, List.map_cons, List.nodup_cons] at hcons
      have hnd' : NodupCountries rest := hcons.2
      have hnotin : r.country ∉ rest.map (fun r => r.country) := hcons.1
      by_cases hr : (r.country == x.country) = true
      · have hnomatch : ∀ y ∈ rest, (y.country == x.country) = false := by
          intro y hy
          refine beq_false_of_ne (fun he => hnotin ?_)
          rw [eq_of_beq hr, ← he]
          exact List.mem_map_of_mem _ hy
        have hid : rest.map (fun r => if r.country == x.country then mergeRecord r x else r)
            = rest := by
          have h1 : ∀ y ∈ rest,
              (fun r : CountryData => if r.country == x.country then mergeRecord r x else r) y
                = id y := by
            intro y hy
            show (if y.country == x.country then mergeRecord y x else y) = y
            rw [hnomatch y hy]
            rfl
          rw [List.map_congr_left h1, List.map_id]
        simp only [List.map_cons, hr, if_true, hid, List.sum_cons, hf]
        ring
      · have hany' : rest.any (fun y => y.country == x.country) = true := by
          rcases List.any_eq_true.mp hany with ⟨y, hy, hby⟩
          rcases List.mem_cons.mp hy with rfl | hy'
          · exact absurd hby hr
          · exact List.any_eq_true.mpr ⟨y, hy', hby⟩
        simp only [List.map_cons, List.sum_cons]
        rw [if_neg hr, sum_map_update f hf rest x hnd' hany']
        ring

/-- One `mergeStep` adds the incoming record's value of an additive field to
the sum over the map. -/
theorem sum_map_mergeStep (f : CountryData → ℚ)
    (hf : ∀ r y : CountryData, f (mergeRecord r y) = f r + f y)
    (acc : List CountryData) (x : CountryData) (hnd : NodupCountries acc) :
    ((mergeStep acc x).map f).sum = (acc.map f).sum + f x := by
  rw [mergeStep]
  by_cases hany : acc.any (fun r => r.country == x.country) = true
  · rw [if_pos hany]
    exact sum_map_update f hf acc x hnd hany
  · rw [if_neg hany]
    simp

/-- Folding the incoming records adds their field sums to the map's. -/
theorem sum_map_foldl_mergeStep (f : CountryData → ℚ)
    (hf : ∀ r y : CountryData, f (mergeRecord r y) = f r + f y) :
    ∀ (inc acc : List CountryData), NodupCountries acc →
      ((inc.foldl mergeStep acc).map f).sum = (acc.map f).sum + (inc.map f).sum
  | [], acc, _ => by simp
  | x :: xs, acc, hnd => by
      rw [List.foldl_cons,
        sum_map_foldl_mergeStep f hf xs (mergeStep acc x) (mergeStep_nodupC x hnd),
        sum_map_mergeStep f hf acc x hnd, List.map_cons, List.sum_cons]
      ring

/-- The field sums of merged details are the sums of both inputs' fields. -/
theorem sum_map_mergeDetails (f : CountryData → ℚ)
    (hf : ∀ r y : CountryData, f (mergeRecord r y) = f r + f y)
    {base : List CountryData} (inc : List CountryData) (hb : NodupCountries base) :
    ((mergeDetails base inc).map f).sum = (base.map f).sum + (inc.map f).sum := by
  rw [mergeDetails, baseMap_eq_self hb]
  exact sum_map_foldl_mergeStep f hf inc base hb

/-- Two record lists with the same cost sum and the same revenue sum have
the same aggregate summary. -/
theorem summarize_eq_of_sums {l l' : List CountryData}
    (hc : (l.map (fun r => r.cost)).sum = (l'.map (fun r => r.cost)).sum)
    (hr : (l.map (fun r => r.revenue)).sum = (l'.map (fun r => r.revenue)).sum) :
    summarize l = summarize l' := by
  simp only [summarize, foldl_add_eq, hc, hr]

/-- `mergeRecord` applied to records with the same country is commutative. -/
theorem mergeRecord_comm {a b : CountryData} (h : a.country = b.country) :
    mergeRecord a b = mergeRecord b a := by
  have hc : a.cost + b.cost = b.cost + a.cost := add_comm _ _
  have hv : a.revenue + b.revenue = b.revenue + a.revenue := add_comm _ _
  simp only [mergeRecord, h, hc, hv]

/-- `mergeRecord` is associative. -/
theorem mergeRecord_assoc (a b c : CountryData) :
    mergeRecord (mergeRecord a b) c = mergeRecord a (mergeRecord b c) := by
  have hc : a.cost + b.cost + c.cost = a.cost + (b.cost + c.cost) := add_assoc _ _ _
  have hv : a.revenue + b.revenue + c.revenue = a.revenue + (b.revenue + c.revenue) :=
    add_assoc _ _ _
  simp only [mergeRecord, hc, hv]

/-- `optMerge` is associative. -/
theorem optMerge_assoc (a b c : Option CountryData) :
    optMerge (optMerge a b) c = optMerge a (optMerge b c) := by
  cases a <;> cases b <;> cases c <;> simp [optMerge, mergeRecord_assoc]

/-- `optMerge` with no base record is the identity. -/
theorem optMerge_none_left (b : Option CountryData) : optMerge none b = b := by
  cases b <;> rfl

/-- `(mergeRecord r y).cost` is additive. -/
theorem mergeRecord_cost (r y : CountryData) :
    (mergeRecord r y).cost = r.cost + y.cost := rfl

/-- `(mergeRecord r y).revenue` is additive. -/
theorem mergeRecord_revenue (r y : CountryData) :
    (mergeRecord r y).revenue = r.revenue + y.revenue := rfl

/-! ## Claim C5 — the merge is commutative and associative -/

/-- C5: on details viewed as a country-keyed mapping with summed cost and
revenue, and on the recomputed summary, the merge is commutative and
associative: for results whose details have distinct countries (the data
model's uniqueness invariant), `merge(A,B)` and `merge(B,A)` assign every
country the same record (hence the same cost, revenue, profit, roi and
status) and the same summary, and `merge(merge(A,B),C)` agrees with
`merge(A,merge(B,C))` on every country's record and on the summary. -/
theorem C5_merge_comm_assoc (A B C : AnalysisResult)
    (hA : NodupCountries A.details) (hB : NodupCountries B.details)
    (hC : NodupCountries C.details) :
    (∀ c, lookupCountry (mergeResults A B).details c
        = lookupCountry (mergeResults B A).details c)
    ∧ (mergeResults A B).summary = (mergeResults B A).summary
    ∧ (∀ c, lookupCountry (mergeResults (mergeResults A B) C).details c
        = lookupCountry (mergeResults A (mergeResults B C)).details c)
    ∧ (mergeResults (mergeResults A B) C).summary
        = (mergeResults A (mergeResults B C)).summary := by
  have hcost : ∀ r y : CountryData, (mergeRecord r y).cost = r.cost + y.cost :=
    mergeRecord_cost
  have hrev : ∀ r y : CountryData, (mergeRecord r y).revenue = r.revenue + y.revenue :=
    mergeRecord_revenue
  have hdAB : (mergeResults A B).details = mergeDetails A.details B.details := rfl
  have hdBA : (mergeResults B A).details = mergeDetails B.details A.details := rfl
  refine ⟨?_, ?_, ?_, ?_⟩
  · intro c
    rw [hdAB, hdBA, lookupCountry_mergeDetails hA hB c, lookupCountry_mergeDetails hB hA c]
    cases hA' : lookupCountry A.details c with
    | none =>
        cases hB' : lookupCountry B.details c <;> rfl
    | some a =>
        cases hB' : lookupCountry B.details c with
        | none => rfl
        | some b =>
            have hab : a.country = b.country :=
              (lookupCountry_country hA').trans (lookupCountry_country hB').symm
            simp only [optMerge]
            rw [mergeRecord_comm hab]
  · show summarize (mergeDetails A.details B.details)
      = summarize (mergeDetails B.details A.details)
    refine summarize_eq_of_sums ?_ ?_
    · rw [sum_map_mergeDetails _ hcost B.details hA,
        sum_map_mergeDetails _ hcost A.details hB, add_comm]
    · rw [sum_map_mergeDetails _ hrev B.details hA,
        sum_map_mergeDetails _ hrev A.details hB, add_comm]
  · intro c
    have e1 : (mergeResults (mergeResults A B) C).details
        = mergeDetails (mergeDetails A.details B.details) C.details := rfl
    have e2 : (mergeResults A (mergeResults B C)).details
        = mergeDetails A.details (mergeDetails B.details C.details) := rfl
    rw [e1, e2,
      lookupCountry_mergeDetails (mergeDetails_nodupC A.details B.details) hC c,
      lookupCountry_mergeDetails hA hB c,
      lookupCountry_mergeDetails hA (mergeDetails_nodupC B.details C.details) c,
      lookupCountry_mergeDetails hB hC c]
    exact optMerge_assoc _ _ _
  · show summarize (mergeDetails (mergeDetails A.details B.details) C.details)
      = summarize (mergeDetails A.details (mergeDetails B.details C.details))
    refine summarize_eq_of_sums ?_ ?_
    · rw [sum_map_mergeDetails _ hcost C.details (mergeDetails_nodupC A.details B.details),
        sum_map_mergeDetails _ hcost B.details hA,
        sum_map_mergeDetails _ hcost (mergeDetails B.details C.details) hA,
        sum_map_mergeDetails _ hcost C.details hB, add_assoc]
    · rw [sum_map_mergeDetails _ hrev C.details (mergeDetails_nodupC A.details B.details),
        sum_map_mergeDetails _ hrev B.details hA,
        sum_map_mergeDetails _ hrev (mergeDetails B.details C.details) hA,
        sum_map_mergeDetails _ hrev C.details hB, add_assoc]

/-- C5 witness: commutativity and associativity of the merged summary at
three concrete results (India; India+Brazil; a third single-record result). -/
theorem C5_merge_comm_assoc_witness :
    (mergeResults mergeExampleBase
        ⟨summarize [indiaInc, brazilInc], [indiaInc, brazilInc], [], []⟩).summary
      = (mergeResults ⟨summarize [indiaInc, brazilInc], [indiaInc, brazilInc], [], []⟩
          mergeExampleBase).summary
    ∧ (mergeResults (mergeResults mergeExampleBase
          ⟨summarize [indiaInc, brazilInc], [indiaInc, brazilInc], [], []⟩)
          ⟨summarize [emptyCountryRecord], [emptyCountryRecord], [], []⟩).summary
      = (mergeResults mergeExampleBase
          (mergeResults ⟨summarize [indiaInc, brazilInc], [indiaInc, brazilInc], [], []⟩
            ⟨summarize [emptyCountryRecord], [emptyCountryRecord], [], []⟩)).summary := by
  have h := C5_merge_comm_assoc mergeExampleBase
    ⟨summarize [indiaInc, brazilInc], [indiaInc, brazilInc], [], []⟩
    ⟨summarize [emptyCountryRecord], [emptyCountryRecord], [], []⟩
    (by simp [NodupCountries, mergeExampleBase, india100])
    (by simp [NodupCountries, indiaInc, brazilInc])
    (by simp [NodupCountries, emptyCountryRecord])
  exact ⟨h.2.1, h.2.2.2⟩

/-! ## Claim C1 — the additive merge of colliding countries -/

/-- C1: merging a base result with an incoming result (details with distinct
countries on both sides) gives, for each country present in both, one merged
record whose cost and revenue are the sums of the two inputs' and whose
profit, roi and status are recomputed by the derivation rules; a country
present in only one input keeps its record unchanged.  Concretely, merging
base India (100/150) with incoming India (50/20) and Brazil (10/5) yields
India cost 150, revenue 170, profit 20, roi 40/3 (i.e. 13.33%), status
PROFITABLE, Brazil unchanged, and summary totals cost 160, revenue 175. -/
theorem C1_merge_additive (base incoming : AnalysisResult)
    (hb : NodupCountries base.details) (hi : NodupCountries incoming.details) :
    (∀ c rb ri, lookupCountry base.details c = some rb →
        lookupCountry incoming.details c = some ri →
        ∃ r, lookupCountry (mergeResults base incoming).details c = some r
          ∧ r.cost = rb.cost + ri.cost
          ∧ r.revenue = rb.revenue + ri.revenue
          ∧ r.profit = r.revenue - r.cost
          ∧ r.roi = (if r.cost > 0 then r.profit / r.cost * 100 else 0)
          ∧ r.status = (if r.profit > 0 then Status.PROFITABLE
              else if r.profit < -0.5 then Status.LOSS else Status.BREAK_EVEN))
    ∧ (∀ c, lookupCountry incoming.details c = none →
        lookupCountry (mergeResults base incoming).details c
          = lookupCountry base.details c)
    ∧ (∀ c, lookupCountry base.details c = none →
        lookupCountry (mergeResults base incoming).details c
          = lookupCountry incoming.details c)
    ∧ handleImportFile (some mergeExampleBase) mergeExampleIncoming =
        some { summary := { totalCost := 160, totalRevenue := 175, netProfit := 15,
                            totalRoi := 75/8 }
               details := [{ country := "India", cost := 150, revenue := 170, profit := 20,
                             roi := 40/3, status := .PROFITABLE }, brazilInc]
               badCountries := [], recommendations := [] }
    ∧ (Int.floor ((40 : ℚ)/3 * 100) = 1333) := by
  have hmd : (mergeResults base incoming).details
      = mergeDetails base.details incoming.details := rfl
  refine ⟨?_, ?_, ?_, ?_, ?_⟩
  · intro c rb ri h1 h2
    rw [hmd, lookupCountry_mergeDetails hb hi c, h1, h2]
    exact ⟨mergeRecord rb ri, rfl, rfl, rfl, rfl, rfl, rfl⟩
  · intro c h
    rw [hmd, lookupCountry_mergeDetails hb hi c, h, optMerge_none_right]
  · intro c h
    rw [hmd, lookupCountry_mergeDetails hb hi c, h, optMerge_none_left]
  · simp [handleImportFile, ingest, mergeResults, mergeDetails, baseMap, setMap,
      mergeStep, mergeRecord, summarize, dedupKeepFirst, mergeExampleBase,
      mergeExampleIncoming, india100, indiaInc, brazilInc]
    norm_num
  · rw [Int.floor_eq_iff]
    norm_num

/-- C1 witness: the general merge statement applied to the example data —
the India record present in both inputs merges additively. -/
theorem C1_merge_additive_witness :
    ∃ r, lookupCountry (mergeResults mergeExampleBase
        ⟨summarize [indiaInc, brazilInc], [indiaInc, brazilInc], [], []⟩).details "India"
        = some r
      ∧ r.cost = india100.cost + indiaInc.cost
      ∧ r.revenue = india100.revenue + indiaInc.revenue
      ∧ r.profit = r.revenue - r.cost
      ∧ r.roi = (if r.cost > 0 then r.profit / r.cost * 100 else 0)
      ∧ r.status = (if r.profit > 0 then Status.PROFITABLE
          else if r.profit < -0.5 then Status.LOSS else Status.BREAK_EVEN) := by
  have h := C1_merge_additive mergeExampleBase
    ⟨summarize [indiaInc, brazilInc], [indiaInc, brazilInc], [], []⟩
    (by simp [NodupCountries, mergeExampleBase, india100])
    (by simp [NodupCountries, indiaInc, brazilInc])
  exact h.1 "India" india100 indiaInc rfl rfl

/-! ## Substring-scan lemmas (towards claim C7) -/

/-- `hasSub` on a cons: an occurrence is either at the front or further in. -/
theorem hasSub_cons (needle : List Char) (c : Char) (l : List Char) :
    hasSub needle (c :: l) = (needle.isPrefixOf (c :: l) || hasSub needle l) := by
  rw [hasSub, dropUntilSub]
  by_cases h : needle.isPrefixOf (c :: l) = true
  · rw [if_pos h, h]
    rfl
  · have hf : needle.isPrefixOf (c :: l) = false := Bool.eq_false_iff.mpr h
    rw [if_neg h, hf, Bool.false_or]
    rfl

/-- A prefix of `x` is a prefix of `x ++ ext`. -/
theorem isPrefixOf_append_right {needle x : List Char} (ext : List Char)
    (h : needle.isPrefixOf x = true) : needle.isPrefixOf (x ++ ext) = true := by
  rw [List.isPrefixOf_iff_prefix] at h ⊢
  exact h.trans (List.prefix_append x ext)

/-- A prefix of `x ++ B` (with `x` non-empty) only looks at the first
`needle.length - 1` characters of `B`. -/
theorem isPrefixOf_take_pred (needle x B : List Char) (hx : x ≠ [])
    (h : needle.isPrefixOf (x ++ B) = true) :
    needle.isPrefixOf (x ++ B.take (needle.length - 1)) = true := by
  rw [List.isPrefixOf_iff_prefix, List.prefix_iff_eq_take] at h ⊢
  rw [List.take_append_eq_append_take] at h ⊢
  rw [List.take_take]
  have hmin : min (needle.length - x.length) (needle.length - 1)
      = needle.length - x.length := by
    refine Nat.min_eq_left (Nat.sub_le_sub_left ?_ needle.length)
    rcases x with _ | ⟨y, ys⟩
    · exact absurd rfl hx
    · simp
  rw [hmin]
  exact h

/-- Absence of `needle` composes across an append, given absence over the
straddling window. -/
theorem hasSub_append_split (needle : List Char) :
    ∀ (A B : List Char), hasSub needle (A ++ B.take (needle.length - 1)) = false →
      hasSub needle B = false → hasSub needle (A ++ B) = false
  | [], B, _, hB => by simpa using hB
  | a :: A, B, hA, hB => by
      rw [List.cons_append, hasSub_cons, Bool.or_eq_false_iff]
      rw [List.cons_append, hasSub_cons, Bool.or_eq_false_iff] at hA
      constructor
      · by_contra hp
        have hp' : needle.isPrefixOf ((a :: A) ++ B) = true := by
          rw [List.cons_append]
          simpa using hp
        have htr := isPrefixOf_take_pred needle (a :: A) B (by simp) hp'
        rw [List.cons_append] at htr
        rw [htr] at hA
        exact absurd hA.1 (by simp)
      · exact hasSub_append_split needle A B hA.2 hB

/-- `charsOfParts` over an appended final chunk. -/
theorem charsOfParts_append_singleton (parts : List String) (s : String) :
    charsOfParts (parts ++ [s]) = charsOfParts parts ++ s.data := by
  induction parts with
  | nil => simp [charsOfParts]
  | cons p ps ih =>
      show p.data ++ charsOfParts (ps ++ [s]) = (p.data ++ charsOfParts ps) ++ s.data
      rw [ih, List.append_assoc]

/-- Soundness of the chunk-wise absence check. -/
theorem noSubInChunks_sound (needle : List Char) (hne : needle ≠ []) :
    ∀ parts : List String, noSubInChunks needle parts = true →
      hasSub needle (charsOfParts parts) = false
  | [], _ => by
      rcases needle with _ | ⟨c, cs⟩
      · exact absurd rfl hne
      · rfl
  | s :: rest, h => by
      rw [noSubInChunks, Bool.and_eq_true] at h
      have hA : hasSub needle (s.data ++ (charsOfParts rest).take (needle.length - 1))
          = false := by
        have := h.1
        rwa [Bool.not_eq_eq_eq_not, Bool.not_true] at this
      have hB := noSubInChunks_sound needle hne rest h.2
      show hasSub needle (s.data ++ charsOfParts rest) = false
      exact hasSub_append_split needle s.data (charsOfParts rest) hA hB

/-- `joinParts` and `charsOfParts` agree. -/
theorem joinParts_data (parts : List String) : (joinParts parts).data = charsOfParts parts := by
  have aux : ∀ (ps : List String) (init : String),
      (ps.foldl (· ++ ·) init).data = init.data ++ charsOfParts ps := by
    intro ps
    induction ps with
    | nil => intro init; simp [charsOfParts]
    | cons p ps ih =>
        intro init
        rw [List.foldl_cons, ih (init ++ p)]
        simp [charsOfParts, String.data_append]
  have := aux parts ""
  simpa [joinParts] using this

/-- When `needle` is a prefix of `hay`, the scan stops immediately. -/
theorem dropUntilSub_of_prefix (needle hay : List Char) (hne : needle ≠ [])
    (h : needle.isPrefixOf hay = true) : dropUntilSub needle hay = some hay := by
  cases hay with
  | nil =>
      rcases needle with _ | ⟨c, cs⟩
      · exact absurd rfl hne
      · simp [List.isPrefixOf] at h
  | cons c rest => rw [dropUntilSub, if_pos h]

/-- The marker scan of the exported document: with no occurrence before the
marker, the scan stops exactly at the marker. -/
theorem dropUntilSub_marker_pos :
    ∀ (A ext : List Char), hasSub markerChars (A ++ markerChars.take 13) = false →
      dropUntilSub markerChars (A ++ (markerChars ++ ext)) = some (markerChars ++ ext)
  | [], ext, _ => by
      rw [List.nil_append]
      refine dropUntilSub_of_prefix _ _ (by decide) ?_
      rw [List.isPrefixOf_iff_prefix]
      exact List.prefix_append _ _
  | a :: A, ext, h => by
      rw [List.cons_append, dropUntilSub]
      rw [List.cons_append, hasSub_cons, Bool.or_eq_false_iff] at h
      have hfalse : markerChars.isPrefixOf (a :: (A ++ (markerChars ++ ext))) = false := by
        by_contra hp
        have hp' : markerChars.isPrefixOf ((a :: A) ++ (markerChars ++ ext)) = true := by
          rw [List.cons_append]
          simpa using hp
        have htr := isPrefixOf_take_pred markerChars (a :: A) (markerChars ++ ext)
          (by simp) hp'
        have htake : (markerChars ++ ext).take (markerChars.length - 1)
            = markerChars.take 13 := by
          rw [List.take_append_of_le_length (by decide)]
          rfl
        rw [htake, List.cons_append] at htr
        rw [htr] at h
        exact absurd h.1 (by simp)
      rw [hfalse]
      simp only [Bool.false_eq_true, if_false]
      exact dropUntilSub_marker_pos A ext h.2

/-- A successful lazy capture means the needle fits inside the scanned
text. -/
theorem takeUntilSub_some_length (needle : List Char) :
    ∀ (L m : List Char), takeUntilSub needle L = some m → needle.length ≤ L.length
  | [], m, h => by
      rcases needle with _ | ⟨c, cs⟩
      · simp
      · simp [takeUntilSub, List.isPrefixOf] at h
  | c :: L, m, h => by
      rw [takeUntilSub] at h
      by_cases hp : needle.isPrefixOf (c :: L) = true
      · have := (List.isPrefixOf_iff_prefix.mp hp).length_le
        simpa using this
      · rw [if_neg hp] at h
        rcases Option.map_eq_some'.mp h with ⟨m', hm', _⟩
        calc needle.length ≤ L.length := takeUntilSub_some_length needle L m' hm'
        _ ≤ (c :: L).length := by simp

/-- A lazy capture found inside `A` is unchanged when text follows `A`. -/
theorem takeUntilSub_append (needle : List Char) :
    ∀ (A m ext : List Char), takeUntilSub needle A = some m →
      takeUntilSub needle (A ++ ext) = some m
  | [], m, ext, h => by
      cases needle with
      | nil =>
          have hm : m = [] := by
            simpa [takeUntilSub, List.isPrefixOf] using h.symm
          subst hm
          rw [List.nil_append]
          cases ext with
          | nil => simp [takeUntilSub, List.isPrefixOf]
          | cons e ext' => simp [takeUntilSub, List.isPrefixOf]
      | cons c cs => simp [takeUntilSub, List.isPrefixOf] at h
  | a :: A, m, ext, h => by
      rw [takeUntilSub] at h
      rw [List.cons_append, takeUntilSub]
      by_cases hp : needle.isPrefixOf (a :: A) = true
      · rw [if_pos hp] at h
        have hp' : needle.isPrefixOf (a :: (A ++ ext)) = true := by
          rw [← List.cons_append]
          exact isPrefixOf_append_right ext hp
        rw [if_pos hp']
        exact h
      · rw [if_neg hp] at h
        rcases Option.map_eq_some'.mp h with ⟨m', hm', hm⟩
        have hlen : needle.length ≤ A.length := takeUntilSub_some_length needle A m' hm'
        have hpf : needle.isPrefixOf (a :: (A ++ ext)) = false := by
          by_contra hx
          have hx' : needle.isPrefixOf (a :: (A ++ ext)) = true := by simpa using hx
          rw [List.isPrefixOf_iff_prefix, List.prefix_iff_eq_take] at hx'
          have htk : (a :: (A ++ ext)).take needle.length = (a :: A).take needle.length := by
            rw [← List.cons_append]
            exact List.take_append_of_le_length (by simpa using Nat.le_succ_of_le hlen)
          rw [htk, ← List.prefix_iff_eq_take, ← List.isPrefixOf_iff_prefix] at hx'
          exact hp hx'
        rw [hpf]
        simp only [Bool.false_eq_true, if_false]
        rw [takeUntilSub_append needle A m' ext hm', Option.map_some']
        exact hm ▸ rfl

/-- Two-character prefix checks agree on lists with the same head. -/
theorem isPrefixOf_pair_eq (x y c : Char) (L M : List Char) (hh : L.head? = M.head?) :
    [x, y].isPrefixOf (c :: L) = [x, y].isPrefixOf (c :: M) := by
  cases L with
  | nil =>
      cases M with
      | nil => rfl
      | cons d M' => simp at hh
  | cons d L' =>
      cases M with
      | nil => simp at hh
      | cons e M' =>
          have : d = e := by simpa using hh
          subst this
          simp [List.isPrefixOf]

/-- The lazy `};` capture over the payload boundary: with no `};` inside
`inner ++ ['}']`, the capture is exactly `inner`. -/
theorem takeUntilSub_boundary :
    ∀ (inner post : List Char), hasSub braceSemi (inner ++ ['\x7d']) = false →
      takeUntilSub braceSemi (inner ++ '\x7d' :: ';' :: post) = some inner
  | [], post, _ => by
      rw [List.nil_append, takeUntilSub]
      have hp : braceSemi.isPrefixOf ('\x7d' :: ';' :: post) = true := by
        show (['\x7d', ';'] : List Char).isPrefixOf ('\x7d' :: ';' :: post) = true
        simp [List.isPrefixOf]
      rw [if_pos hp]
  | c :: inner', post, h => by
      rw [List.cons_append, takeUntilSub]
      rw [List.cons_append, hasSub_cons, Bool.or_eq_false_iff] at h
      have hpair : braceSemi.isPrefixOf (c :: (inner' ++ '\x7d' :: ';' :: post))
          = braceSemi.isPrefixOf (c :: (inner' ++ ['\x7d'])) := by
        refine isPrefixOf_pair_eq '\x7d' ';' c _ _ ?_
        cases inner' <;> rfl
      rw [hpair, h.1]
      simp only [Bool.false_eq_true, if_false]
      rw [takeUntilSub_boundary inner' post h.2, Option.map_some']

/-- The serialized payload is its inner text wrapped in braces. -/
theorem jsonPayload_data (R : AnalysisResult) (t : String) :
    (jsonPayload R t).data = '\x7b' :: ((jsonPayloadInner R t).data ++ ['\x7d']) := by
  rw [jsonPayload, String.data_append, String.data_append]
  rfl

set_option maxRecDepth 40000

/-- The template head, extended by the marker's text part, contains no
occurrence of `const DATA = {` (checked chunk by chunk). -/
theorem headParts_no_marker :
    hasSub markerChars (charsOfParts htmlHeadParts ++ markerChars.take 13) = false := by
  have h13 : markerChars.take 13 = ("const DATA = " : String).data := by decide
  have hsound := noSubInChunks_sound markerChars (by decide)
    (htmlHeadParts ++ ["const DATA = "]) (by decide)
  rw [charsOfParts_append_singleton] at hsound
  rw [h13]
  exact hsound

/-- The exported document's characters: template head, then the marker, then
the payload's inner text closed by `};`, then the template tail. -/
theorem exportHtml_data (R : AnalysisResult) (t : String) :
    (exportHtml R t).data
      = charsOfParts htmlHeadParts
        ++ (markerChars ++ ((jsonPayloadInner R t).data ++ '\x7d' :: ';' :: htmlTailText.data)) := by
  have hm : markerChars = ("const DATA = " : String).data ++ ['\x7b'] := by decide
  show (htmlHeadText ++ "const DATA = " ++ jsonPayload R t ++ ";" ++ htmlTailText).data = _
  rw [String.data_append, String.data_append, String.data_append, String.data_append,
    jsonPayload_data, hm, htmlHeadText, joinParts_data]
  simp [List.append_assoc]

/-- Extraction over an exported document reduces to the lazy `};` capture
over the payload's inner text followed by the closing `};` and the tail. -/
theorem extractData_exportHtml (R : AnalysisResult) (t : String) :
    extractData (exportHtml R t)
      = ((takeUntilSub braceSemi
          ((jsonPayloadInner R t).data ++ '\x7d' :: ';' :: htmlTailText.data)).map
          (fun mid => String.mk ('\x7b' :: (mid ++ ['\x7d'])))) := by
  rw [extractData]
  have htl : (exportHtml R t).toList = (exportHtml R t).data := rfl
  rw [htl, exportHtml_data, dropUntilSub_marker_pos _ _ headParts_no_marker,
    Option.some_bind]
  have hdrop : ((markerChars
      ++ ((jsonPayloadInner R t).data ++ '\x7d' :: ';' :: htmlTailText.data)).drop 14)
      = (jsonPayloadInner R t).data ++ '\x7d' :: ';' :: htmlTailText.data := by
    have h14 : markerChars.length = 14 := by decide
    rw [← h14, List.drop_left]
  rw [hdrop]

/-! ## Claim C7 — HTML export/import round trip -/

/-- C7 amended: the `.html` import path locates the payload with the marker
pattern, but the capture is the *lazy* match up to the first `};`; the
round trip therefore reproduces the result exactly only when the serialized
payload contains no `};` substring.  Under that proviso the captured text
is exactly the serialized payload — so parsing it (the browser's inverse of
`JSON.stringify`) yields the payload object — and ingesting that object
reproduces the result's details, badCountries, recommendations and summary
exactly (generatedAt is not read by the importer). -/
theorem C7_amended_html_round_trip (R : AnalysisResult) (generatedAt : String)
    (h : hasSub braceSemi (jsonPayload R generatedAt).data = false) :
    extractData (exportHtml R generatedAt) = some (jsonPayload R generatedAt)
    ∧ handleImportFile none
        ⟨some R.details, some R.summary, some R.badCountries, some R.recommendations⟩
      = some R := by
  constructor
  · rw [extractData_exportHtml]
    have hp := jsonPayload_data R generatedAt
    rw [hp, hasSub_cons, Bool.or_eq_false_iff] at h
    rw [takeUntilSub_boundary _ _ h.2, Option.map_some']
    exact congrArg some (congrArg String.mk hp.symm)
  · cases R
    rfl

/-- C7 witness: the amended round trip at a concrete India result — its
serialized payload has no `};`, and extraction recovers it exactly. -/
theorem C7_amended_html_round_trip_witness :
    hasSub braceSemi (jsonPayload htmlWitnessResult "now").data = false
    ∧ extractData (exportHtml htmlWitnessResult "now")
      = some (jsonPayload htmlWitnessResult "now") := by
  have hh : hasSub braceSemi (jsonPayload htmlWitnessResult "now").data = false := by decide
  exact ⟨hh, (C7_amended_html_round_trip htmlWitnessResult "now" hh).1⟩

/-- C7 counterexample: for a result whose recommendation contains `};`, the
lazy capture stops inside the string literal — the captured text is a
truncated prefix of the payload (not even valid JSON), so the `.html` side
of the import cannot reproduce the exported result. -/
theorem C7_cex_lazy_capture_truncated :
    extractData (exportHtml badRecResult "t")
      = some "\x7b\"details\":[],\"badCountries\":[],\"recommendations\":[\"x\x7d"
    ∧ extractData (exportHtml badRecResult "t") ≠ some (jsonPayload badRecResult "t") := by
  have hstep := extractData_exportHtml badRecResult "t"
  have htake : takeUntilSub braceSemi (jsonPayloadInner badRecResult "t").data
      = some ("\"details\":[],\"badCountries\":[],\"recommendations\":[\"x" : String).data := by
    decide
  have hfull := takeUntilSub_append braceSemi (jsonPayloadInner badRecResult "t").data _
    ('\x7d' :: ';' :: htmlTailText.data) htake
  rw [hfull, Option.map_some'] at hstep
  rw [hstep]
  constructor
  · decide
  · decide

end TopAI
